import Mathlib

/-
  Verification development for the starkShield off-chain intent solver
  (Rust sources under src/solver/src).  The Rust code is shallowly embedded:
  pure functions become Lean functions over Nat / List Char, stateful Redis
  storage becomes explicit state passing over an abstract store state, and
  fallible code returns Except / Option.  Machine integers (u64, BigUint)
  are modelled as Nat: the source never relies on u64 wraparound on the
  paths verified here.  Rust String operations are modelled on List Char
  (UTF-8 byte order and Unicode code-point order agree on the ASCII data
  these functions handle).
-/

set_option maxRecDepth 16384

namespace StarkShield

/-! ### Character classes and low-level string helpers

Models of the Rust `char::is_ascii_digit`, `char::is_ascii_hexdigit`,
`str::trim` (ASCII whitespace cases), `str::trim_start_matches`,
`str::split_once`, `str::starts_with` and `str::contains`. -/

/-- ASCII whitespace recognised by the model of Rust `str::trim`
(space, tab, newline, carriage return). -/
def isWs (c : Char) : Bool :=
  c.toNat = 32 || c.toNat = 9 || c.toNat = 10 || c.toNat = 13

/-- Model of `char::is_ascii_digit`. -/
def isDigitC (c : Char) : Bool := 48 ≤ c.toNat && c.toNat ≤ 57

/-- Model of `char::is_ascii_hexdigit`. -/
def isHexDigitC (c : Char) : Bool :=
  (48 ≤ c.toNat && c.toNat ≤ 57) ||
  (97 ≤ c.toNat && c.toNat ≤ 102) ||
  (65 ≤ c.toNat && c.toNat ≤ 70)

/-- Numeric value of one decimal digit character. -/
def digitVal (c : Char) : Nat := c.toNat - 48

/-- Numeric value of one hexadecimal digit character. -/
def hexDigitVal (c : Char) : Nat :=
  if 48 ≤ c.toNat && c.toNat ≤ 57 then c.toNat - 48
  else if 97 ≤ c.toNat && c.toNat ≤ 102 then c.toNat - 97 + 10
  else c.toNat - 65 + 10

/-- Value of a decimal digit string (model of `BigUint::from_str_radix(_, 10)`
on an all-digit input). -/
def digitsVal (l : List Char) : Nat := l.foldl (fun acc c => acc * 10 + digitVal c) 0

/-- Model of `BigUint::from_str_radix(v, 10)`: succeeds exactly on non-empty
all-digit strings (the sign-prefixed forms num-bigint also accepts never
occur in this codebase). -/
def digitsVal? (l : List Char) : Option Nat :=
  if l ≠ [] ∧ l.all isDigitC then some (digitsVal l) else none

/-- Value of a hexadecimal digit string. -/
def hexVal (l : List Char) : Nat := l.foldl (fun acc c => acc * 16 + hexDigitVal c) 0

/-- Model of `BigUint::from_str_radix(v, 16)`: succeeds exactly on non-empty
all-hex-digit strings. -/
def hexVal? (l : List Char) : Option Nat :=
  if l ≠ [] ∧ l.all isHexDigitC then some (hexVal l) else none

/-- Model of `str::starts_with(pat)` on character lists. -/
def leadsWith : List Char → List Char → Bool
  | [], _ => true
  | _ :: _, [] => false
  | a :: as, b :: bs => a == b && leadsWith as bs

/-- Model of `str::contains(pat)` (substring search) on character lists. -/
def containsSeq (pat : List Char) : List Char → Bool
  | [] => leadsWith pat []
  | c :: rest => leadsWith pat (c :: rest) || containsSeq pat rest

/-- Model of `str::trim` on character lists. -/
def trimChars (l : List Char) : List Char :=
  ((l.dropWhile isWs).reverse.dropWhile isWs).reverse

/-- One fuelled stripping pass for `stripAll`; structural recursion keeps the
function kernel-reducible.  Each strip removes at least one character, so
fuel equal to the list length never runs out. -/
def stripAllGo (pat : List Char) : Nat → List Char → List Char
  | 0, m => m
  | fuel + 1, m =>
    if pat ≠ [] ∧ leadsWith pat m = true then stripAllGo pat fuel (m.drop pat.length)
    else m

/-- Model of `str::trim_start_matches(pat)`: strip every leading repetition
of the (non-empty) pattern. -/
def stripAll (pat : List Char) (l : List Char) : List Char :=
  stripAllGo pat l.length l

/-- Model of `str::split_once(sep)`: split at the first occurrence of the
separator, returning the parts before and after it. -/
def splitOnce (sep : Char) : List Char → Option (List Char × List Char)
  | [] => none
  | c :: rest =>
    if c = sep then some ([], rest)
    else
      match splitOnce sep rest with
      | some (a, b) => some (c :: a, b)
      | none => none

/-- True when the (trimmed) input begins with a hex marker, mirroring the
repeated Rust test `v.starts_with("0x") || v.starts_with("0X")`. -/
def startsHex (v : List Char) : Bool :=
  leadsWith ['0', 'x'] v || leadsWith ['0', 'X'] v

/-- Model of the Rust hex-body extraction
`v.trim_start_matches("0x").trim_start_matches("0X")`. -/
def stripHexMarker (v : List Char) : List Char :=
  stripAll ['0', 'X'] (stripAll ['0', 'x'] v)

/-- Model of `str::eq_ignore_ascii_case` (via ASCII lowercasing). -/
def eqIgnoreCase (a b : List Char) : Bool :=
  a.map Char.toLower == b.map Char.toLower

/-! ### Field-element and amount parsing (src/solver/src/starknet.rs) -/

/-- The Starknet field prime, from `starknet_field_prime`
(src/solver/src/starknet.rs lines 281-285): 2^251 + 17 * 2^192 + 1. -/
def STARK_PRIME : Nat := 2 ^ 251 + 17 * 2 ^ 192 + 1

/-- Core of `parse_felt_any` on an already-trimmed character list
(src/solver/src/starknet.rs lines 262-279): parse hex (0x-prefixed) or
decimal, then reduce modulo the Starknet field prime.  The final
`Felt::from_dec_str` on the reduced value cannot fail.  An empty input
yields 0. -/
def feltAnyCore (v : List Char) : Except String Nat :=
  if v = [] then .ok 0
  else
    let n? := if startsHex v then hexVal? (stripHexMarker v) else digitsVal? v
    match n? with
    | some n => .ok (n % STARK_PRIME)
    | none => .error "invalid felt"

/-- Model of `parse_felt_any` (src/solver/src/starknet.rs lines 262-279). -/
def parse_felt_any (value : String) : Except String Nat :=
  feltAnyCore (trimChars value.data)

/-- Value of the fractional part after the source's zero right-padding to
`decimals` digits (`while frac.len() < decimals { frac.push('0') }` followed
by the parse of the padded digit string, 0 when it is empty). -/
def fracPadVal (fp : List Char) (decimals : Nat) : Nat :=
  let padded := fp ++ List.replicate (decimals - fp.length) '0'
  if padded = [] then 0 else digitsVal padded

/-- Model of `parse_amount_to_base_units` (src/solver/src/starknet.rs lines
458-499).  Hex input is taken directly as base units; an all-digit integer
is multiplied by 10^decimals; a decimal fraction with at most `decimals`
fractional digits is scaled by right-padding the fraction with zeros. -/
def parse_amount_to_base_units (value : String) (decimals : Nat) : Except String Nat :=
  let v := trimChars value.data
  if v = [] then .ok 0
  else if startsHex v then
    match hexVal? (stripHexMarker v) with
    | some n => .ok n
    | none => .error "invalid hex amount"
  else
    match splitOnce '.' v with
    | some (ip, fp) =>
      if ip = [] ∨ ¬ (ip.all isDigitC = true) then .error "invalid decimal amount"
      else if ¬ (fp.all isDigitC = true) then .error "invalid decimal amount"
      else if decimals < fp.length then .error "too many decimals"
      else .ok (digitsVal ip * 10 ^ decimals + fracPadVal fp decimals)
    | none =>
      if v.all isDigitC then .ok (digitsVal v * 10 ^ decimals)
      else .error "invalid amount"

/-- Model of `normalize_hex_address` (src/solver/src/starknet.rs lines
363-371): lowercase and trim; for 0x-prefixed values strip the marker and
leading zeros, then left-pad the hex body with zeros to width 64. -/
def normalize_hex_address (value : String) : String :=
  let v := (trimChars value.data).map Char.toLower
  if ¬ (leadsWith ['0', 'x'] v = true) then String.mk v
  else
    let hex := (stripAll ['0', 'x'] v).dropWhile (fun c => c == '0')
    let hex := if hex = [] then ['0'] else hex
    String.mk (['0', 'x'] ++ List.replicate (64 - hex.length) '0' ++ hex)

/-- Model of `token_decimals` (src/solver/src/starknet.rs lines 373-388):
known Sepolia token addresses map to their decimals, default 18. -/
def token_decimals (token_address : String) : Nat :=
  let a := normalize_hex_address token_address
  if a = "0x049d36570d4e46f48e99674bd3fcc84644ddd6b96f7c741b1562b82f9e004dc7" then 18
  else if a = "0x04718f5a0fc34cc1af16a1cdee98ffb20c31f5cd61d6ab07201858f4287c938d" then 18
  else if a = "0x053c91253bc9682c04929ca02ed00b3e423f6710d2ee7e0d5ebb06f3ecf368a8" then 6
  else if a = "0x068f5c6a61780768455de69077e07e89787839bf8166decfbf92b645209c0fb8" then 6
  else 18

/-- Model of the public wrapper `token_decimals_for`
(src/solver/src/starknet.rs lines 454-456). -/
def token_decimals_for (token_address : String) : Nat := token_decimals token_address

/-- Model of `parse_amount_to_felt` (src/solver/src/starknet.rs lines
400-452).  Identical amount grammar to `parse_amount_to_base_units`, but
hex input goes through `parse_felt_any` (hence is reduced mod the field
prime) and the decimal branches build the value with `Felt::from_dec_str`,
modelled as reduction modulo the prime (field construction wraps). -/
def parse_amount_to_felt (value : String) (decimals : Nat) : Except String Nat :=
  let v := trimChars value.data
  if v = [] then .ok 0
  else if startsHex v then feltAnyCore v
  else
    match splitOnce '.' v with
    | some (ip, fp) =>
      if ip = [] ∨ ¬ (ip.all isDigitC = true) then .error "invalid decimal amount"
      else if ¬ (fp.all isDigitC = true) then .error "invalid decimal amount"
      else if decimals < fp.length then .error "too many decimals"
      else .ok ((digitsVal ip * 10 ^ decimals + fracPadVal fp decimals) % STARK_PRIME)
    | none =>
      if v.all isDigitC then .ok ((digitsVal v * 10 ^ decimals) % STARK_PRIME)
      else feltAnyCore v

/-! ### Data model (src/solver/src/models.rs)

Timestamps (`DateTime<Utc>` and u64 unix seconds) are modelled as Nat.
The `Intent` struct carries `proof_public_inputs`, which matcher.rs and
api.rs require of it (the copy of models.rs in this snapshot omits the
field declaration, but every consumer reads and constructs it). -/

structure PublicInputs where
  user : String
  token_in : String
  token_out : String
  amount_in : String
  min_amount_out : String
  deadline : Nat
  nonce : Nat
  chain_id : String
  domain_separator : String
  version : Nat
deriving DecidableEq, Repr

inductive IntentStatus where
  | pending
  | matched
  | settled
  | cancelled
  | expired
  | failed
deriving DecidableEq, Repr

structure Intent where
  id : String
  intent_hash : String
  nullifier : String
  proof_data : List String
  proof_public_inputs : List String
  public_inputs : PublicInputs
  encrypted_details : List Nat
  status : IntentStatus
  created_at : Nat
  expires_at : Nat
  matched_with : Option String
  settlement_tx_hash : Option String
deriving DecidableEq, Repr

/-- Model of `Intent::new` (src/solver/src/models.rs lines 154-176) as called
by api.rs: the uuid and the current time are passed in explicitly. -/
def Intent.new (id : String) (intent_hash nullifier : String)
    (proof_data proof_public_inputs : List String) (public_inputs : PublicInputs)
    (encrypted_details : List Nat) (now : Nat) (expires_at : Nat) : Intent :=
  { id := id
    intent_hash := intent_hash
    nullifier := nullifier
    proof_data := proof_data
    proof_public_inputs := proof_public_inputs
    public_inputs := public_inputs
    encrypted_details := encrypted_details
    status := .pending
    created_at := now
    expires_at := expires_at
    matched_with := none
    settlement_tx_hash := none }

/-- Model of `Intent::is_expired` (src/solver/src/models.rs lines 178-180):
`Utc::now() > expires_at`, with the current time passed explicitly. -/
def Intent.is_expired (now : Nat) (i : Intent) : Bool := decide (i.expires_at < now)

/-- Model of `Intent::can_match` (src/solver/src/models.rs lines 182-184). -/
def can_match (now : Nat) (i : Intent) : Bool :=
  decide (i.status = .pending) && ! Intent.is_expired now i

structure MatchedPair where
  id : String
  intent_a : Intent
  intent_b : Intent
  matched_at : Nat
  settlement_data_pool : String
  settlement_data_sqrt_price_limit : String
deriving DecidableEq, Repr

/-- Retry-backoff metadata per matched pair
(src/solver/src/storage.rs lines 14-19). -/
structure MatchRetryState where
  failures : Nat
  next_retry_at_unix : Nat
  terminal : Bool
deriving DecidableEq, Repr

/-! ### Matcher pure core (src/solver/src/matcher.rs) -/

/-- Model of `IntentMatcher::amounts_in_base_units` (src/solver/src/matcher.rs
lines 22-37): prefer prover-supplied base units from
`proof_public_inputs[3]` / `[4]` when at least five entries are present
(`BigUint::from_str` is decimal), else fall back to parsing the
human-readable amounts with the token-decimals table. -/
def amounts_in_base_units (i : Intent) : Option (Nat × Nat) :=
  match i.proof_public_inputs with
  | _ :: _ :: _ :: a :: m :: _ => do
    let amount_in ← digitsVal? a.data
    let min_out ← digitsVal? m.data
    some (amount_in, min_out)
  | _ => do
    let in_decimals := token_decimals_for i.public_inputs.token_in
    let out_decimals := token_decimals_for i.public_inputs.token_out
    let amount_in ← (parse_amount_to_base_units i.public_inputs.amount_in in_decimals).toOption
    let min_out ← (parse_amount_to_base_units i.public_inputs.min_amount_out out_decimals).toOption
    some (amount_in, min_out)

/-- Model of `IntentMatcher::are_compatible` (src/solver/src/matcher.rs lines
163-203), with the current unix time passed explicitly.  The checks run in
the source's order: distinct users, complementary tokens, base-unit amount
sufficiency, then the deadline test `deadline < now → incompatible`. -/
def are_compatible (now : Nat) (a b : Intent) : Bool :=
  if a.public_inputs.user == b.public_inputs.user then false
  else if a.public_inputs.token_in != b.public_inputs.token_out
       || a.public_inputs.token_out != b.public_inputs.token_in then false
  else
    match amounts_in_base_units a, amounts_in_base_units b with
    | some (amount_a_in, min_a_out), some (amount_b_in, min_b_out) =>
      if amount_a_in < min_b_out || amount_b_in < min_a_out then false
      else if a.public_inputs.deadline < now || b.public_inputs.deadline < now then false
      else true
    | _, _ => false

/-- The exact integer surplus, the `total_surplus` BigUint computed inside
`IntentMatcher::compatibility_surplus` (src/solver/src/matcher.rs lines
205-223) before its conversion to f64. -/
def total_surplus (a b : Intent) : Nat :=
  let pa := (amounts_in_base_units a).getD (0, 0)
  let pb := (amounts_in_base_units b).getD (0, 0)
  let surplus_a := if pb.2 ≤ pa.1 then pa.1 - pb.2 else 0
  let surplus_b := if pa.2 ≤ pb.1 then pb.1 - pa.2 else 0
  surplus_a + surplus_b

/-- Fuelled bit-length of a natural number (fuel n suffices since the value
halves each step); structural recursion keeps it kernel-reducible. -/
def bitLenGo : Nat → Nat → Nat
  | 0, _ => 0
  | fuel + 1, n => if n = 0 then 0 else bitLenGo fuel (n / 2) + 1

def bitLen (n : Nat) : Nat := bitLenGo n n

/-- Round a natural number to 53 significand bits, ties to even: the value of
the nearest binary64 (with unbounded exponent).  Numbers below 2^53 are
exact. -/
def round53 (n : Nat) : Nat :=
  if n < 2 ^ 53 then n
  else
    let e := bitLen n - 53
    let q := n / 2 ^ e
    let r := n % 2 ^ e
    let half := 2 ^ (e - 1)
    let q' := if half < r then q + 1
              else if r < half then q
              else if q % 2 = 0 then q else q + 1
    q' * 2 ^ e

/-- Model of `total_surplus.to_string().parse::<f64>()` on a natural number:
Rust's parse is correctly rounded (round to nearest, ties to even), and
values whose rounding reaches 2^1024 overflow to positive infinity, here
represented by `none`.  Non-negative doubles compare by this value. -/
def f64OfNat (n : Nat) : Option Nat :=
  let v := round53 n
  if 2 ^ 1024 ≤ v then none else some v

/-- Model of `IntentMatcher::compatibility_surplus` (src/solver/src/matcher.rs
lines 205-225): the exact BigUint surplus projected to f64 for ranking only.
The projection collapses distinct surpluses that round to the same double
(possible from 2^53 up). -/
def compatibility_surplus (a b : Intent) : Option Nat :=
  f64OfNat (total_surplus a b)

/-- The strict order of non-negative doubles (`none` is positive infinity). -/
def f64Lt : Option Nat → Option Nat → Prop
  | some x, some y => x < y
  | some _, none => True
  | none, _ => False

/-- The non-strict order of non-negative doubles. -/
def f64Le : Option Nat → Option Nat → Prop
  | _, none => True
  | none, some _ => False
  | some x, some y => x ≤ y

/-- Model of `Ord::cmp` on u64. -/
def cmpNat (m n : Nat) : Ordering :=
  if m < n then .lt else if m = n then .eq else .gt

/-- Model of `f64::partial_cmp(..).unwrap_or(Equal)` on the projected
surpluses: both operands are non-negative doubles (never NaN, possibly
infinite), so the comparison is by value, with infinity equal to itself. -/
def cmpF64 : Option Nat → Option Nat → Ordering
  | none, none => .eq
  | none, some _ => .gt
  | some _, none => .lt
  | some x, some y => cmpNat x y

/-- Model of `Ord::cmp` on String (byte order; code-point order agrees on
ASCII nullifiers). -/
def cmpStr (s t : String) : Ordering :=
  if s < t then .lt else if s = t then .eq else .gt

/-- Model of the comparator inside `match_batch`'s `max_by`
(src/solver/src/matcher.rs lines 133-139): the f64-projected surplus
ascending (via partial_cmp), then `b2.created_at.cmp(&b1.created_at)`, then
`b2.nullifier.cmp(&b1.nullifier)` (both reversed). -/
def candidateCompare (a b1 b2 : Intent) : Ordering :=
  ((cmpF64 (compatibility_surplus a b1) (compatibility_surplus a b2)).then
    (cmpNat b2.created_at b1.created_at)).then
    (cmpStr b2.nullifier b1.nullifier)

/-- Model of `Iterator::max_by`: fold keeping the accumulator only when it
compares strictly greater, so the last of several maxima is returned. -/
def maxByLast (cmp : α → α → Ordering) : List α → Option α
  | [] => none
  | x :: xs => some (xs.foldl (fun acc y => if cmp acc y = .gt then acc else y) x)

/-- Model of `Iterator::enumerate`. -/
def enumerate (l : List α) : List (Nat × α) := (List.range l.length).zip l

/-- Model of the counterparty selection in `match_batch`
(src/solver/src/matcher.rs lines 129-139): over the enumerated `intents_b`,
keep the candidates not yet used in this tick that are compatible with
`intent_a`, and take the maximum under `candidateCompare`. -/
def select_best (now : Nat) (intent_a : Intent) (intents_b : List Intent)
    (used_b : List Nat) : Option (Nat × Intent) :=
  maxByLast (fun p q => candidateCompare intent_a p.2 q.2)
    ((enumerate intents_b).filter
      (fun p => ! (used_b.contains p.1) && are_compatible now intent_a p.2))

/-- The fold that `maxByLast` performs on a non-empty candidate list. -/
def pickBest (a : Intent) (x0 : Nat × Intent) (l : List (Nat × Intent)) : Nat × Intent :=
  l.foldl (fun acc y => if candidateCompare a acc.2 y.2 = .gt then acc else y) x0

/-- The strict preference order the matcher's comparator realizes on
counterparties of a: strictly larger f64-projected surplus, or equal
projected surplus and strictly earlier created_at, or equal projected
surplus and created_at and strictly smaller nullifier. -/
def StrictBetter (a x y : Intent) : Prop :=
  f64Lt (compatibility_surplus a y) (compatibility_surplus a x) ∨
  (compatibility_surplus a x = compatibility_surplus a y ∧
    (x.created_at < y.created_at ∨
      (x.created_at = y.created_at ∧ x.nullifier < y.nullifier)))

/-- Candidates indistinguishable by the matcher's comparator. -/
def TiedCand (a x y : Intent) : Prop :=
  compatibility_surplus a x = compatibility_surplus a y ∧
  x.created_at = y.created_at ∧ x.nullifier = y.nullifier

/-- Model of `is_funding_error` in `retry_unsettled_matches`
(src/solver/src/matcher.rs lines 385-387). -/
def is_funding_error (msg : String) : Bool :=
  containsSeq "INSUFFICIENT_BALANCE".data msg.data ||
  containsSeq "INSUFFICIENT_ALLOWANCE".data msg.data

/-- Model of `compute_backoff_secs` in `retry_unsettled_matches`
(src/solver/src/matcher.rs lines 391-397): no delay below 3 failures, then
300 * 2^(min 6 (failures - 3)) seconds capped at 3600. -/
def compute_backoff_secs (failures : Nat) : Nat :=
  if failures < 3 then 0
  else min (300 * 2 ^ (min (failures - 3) 6)) 3600

/-- Model of `bump_match_retry_state` (src/solver/src/storage.rs lines
79-115) acting on the pair's retry-state entry: Redis HINCRBY yields 1 on a
missing hash, and the terminal flag is cleared. -/
def bump_match_retry_state (st : Option MatchRetryState) (next_retry_at_unix : Nat) :
    MatchRetryState :=
  { failures := (st.map (·.failures)).getD 0 + 1
    next_retry_at_unix := next_retry_at_unix
    terminal := false }

/-- The settlement attempt inside the retry loop's per-pair body
(src/solver/src/matcher.rs lines 410-437) with the outcome of the on-chain
`settle_match` passed in: success clears the retry state; a funding error
re-reads the failure counter, bumps it, and schedules the next retry after
the computed backoff; any other error leaves the state untouched. -/
def retry_attempt (now : Nat) (st : Option MatchRetryState) (settle : Except String Unit) :
    Option MatchRetryState × Bool :=
  match settle with
  | .ok _ => (none, true)
  | .error msg =>
    if is_funding_error msg then
      let current_failures := (st.map (·.failures)).getD 0
      let backoff := compute_backoff_secs (current_failures + 1)
      (some (bump_match_retry_state st (now + backoff)), true)
    else (st, true)

/-- Model of one iteration of the retry loop over a pair
(src/solver/src/matcher.rs lines 399-438): a pair whose retry state says
`next_retry_at_unix > now` is skipped (Bool result is whether settlement
was attempted); otherwise the settlement attempt runs. -/
def retry_step (now : Nat) (st : Option MatchRetryState) (settle : Except String Unit) :
    Option MatchRetryState × Bool :=
  match st with
  | some s => if now < s.next_retry_at_unix then (some s, false) else retry_attempt now st settle
  | none => retry_attempt now st settle

/-! ### Store (src/solver/src/storage.rs)

The Redis key-value service is modelled as an explicit state: association
lists for string-valued keys and set membership lists for Redis sets
(enumeration order of SMEMBERS is a modelling choice; no verified claim
depends on it).  Primary intent records carry their absolute expiry when
written with SETEX, and `none` when rewritten with a plain SET (which
removes the TTL, as `update_intent_status` does). -/

def assocFind (l : List (String × α)) (k : String) : Option α :=
  (l.find? (fun p => p.1 == k)).map (·.2)

def assocSet (l : List (String × α)) (k : String) (v : α) : List (String × α) :=
  (k, v) :: l.filter (fun p => ! (p.1 == k))

/-- Model of Redis SADD into a set value. -/
def addToSet (l : List String) (x : String) : List String :=
  if l.contains x then l else l ++ [x]

structure StoreState where
  intents : List (String × (Option Nat × Intent)) := []
  pending : List String := []
  userIndex : List (String × List String) := []
  pairIndex : List (String × List String) := []
  nonces : List (String × Nat) := []
deriving Repr

def intentKey (nullifier : String) : String := "intent:" ++ nullifier

def pairKey (token_in token_out : String) : String :=
  "intents:pair:" ++ token_in ++ ":" ++ token_out

/-- One lowercase hex digit of value n < 16. -/
def hexDigitChar (n : Nat) : Char :=
  if n < 10 then Char.ofNat (48 + n) else Char.ofNat (97 + (n - 10))

/-- Fuelled digit extraction (fuel n suffices for the value n, since n / 16
shrinks strictly); structural recursion keeps it kernel-reducible. -/
def natToHexAux : Nat → Nat → List Char → List Char
  | 0, _, acc => acc
  | fuel + 1, n, acc =>
    if n = 0 then acc else natToHexAux fuel (n / 16) (hexDigitChar (n % 16) :: acc)

/-- Lowercase minimal hex rendering, model of Rust formatting with \x7b:x\x7d. -/
def natToHex (n : Nat) : String :=
  if n = 0 then "0" else String.mk (natToHexAux n n [])

/-- Model of `starknet::core::types::Felt::from_hex` as used in storage.rs and
api.rs: trim is done by the callers; an optional 0x/0X marker is accepted and
the hex value is reduced into the field.  Inputs with non-hex characters
fail. -/
def felt_from_hex (s : String) : Option Nat :=
  let v := s.data
  let h := if leadsWith ['0', 'x'] v then v.drop 2
           else if leadsWith ['0', 'X'] v then v.drop 2
           else v
  (hexVal? h).map (· % STARK_PRIME)

/-- Model of `RedisStorage::user_index_key` (src/solver/src/storage.rs lines
22-29): canonicalize the user address by felt value when it parses, else
fall back to the lowercased trimmed string. -/
def user_index_key (user : String) : String :=
  match felt_from_hex (String.mk (trimChars user.data)) with
  | some f => "intents:user:0x" ++ natToHex f
  | none => "intents:user:" ++ String.mk ((trimChars user.data).map Char.toLower)

def nonce_key (user : String) (nonce : Nat) : String :=
  "nonce:" ++ user ++ ":" ++ toString nonce

/-- Whether a nonce reservation key is live (present and not expired) at the
given time; Redis treats an expired key as absent. -/
def nonce_live (st : StoreState) (key : String) (now : Nat) : Bool :=
  match assocFind st.nonces key with
  | some e => decide (now < e)
  | none => false

/-- Model of `RedisStorage::reserve_nonce` (src/solver/src/storage.rs lines
208-227): atomic SET NX EX on key `nonce:{user}:{nonce}` with TTL
`max(expires_at - now, 1)`; returns false exactly when the key is live. -/
def reserve_nonce (now : Nat) (st : StoreState) (user : String) (nonce : Nat)
    (expires_at_unix : Nat) : StoreState × Bool :=
  let key := nonce_key user nonce
  if nonce_live st key now then (st, false)
  else
    let ttl := max (expires_at_unix - now) 1
    ({ st with nonces := assocSet st.nonces key (now + ttl) }, true)

/-- Model of `RedisStorage::get_intent` (src/solver/src/storage.rs lines
230-246): primary lookup, none once the TTL has expired. -/
def get_intent (now : Nat) (st : StoreState) (nullifier : String) : Option Intent :=
  match assocFind st.intents (intentKey nullifier) with
  | some (some e, i) => if now < e then some i else none
  | some (none, i) => some i
  | none => none

/-- Model of `RedisStorage::store_intent` (src/solver/src/storage.rs lines
165-205): SETEX the primary record with TTL `max(expires_at - created_at, 1)`
and add the nullifier to the pending, per-user and per-pair sets. -/
def store_intent (now : Nat) (st : StoreState) (i : Intent) : StoreState :=
  let ttl := max (i.expires_at - i.created_at) 1
  let ukey := user_index_key i.public_inputs.user
  let pkey := pairKey i.public_inputs.token_in i.public_inputs.token_out
  { st with
    intents := assocSet st.intents (intentKey i.nullifier) (some (now + ttl), i)
    pending := addToSet st.pending i.nullifier
    userIndex := assocSet st.userIndex ukey (addToSet ((assocFind st.userIndex ukey).getD []) i.nullifier)
    pairIndex := assocSet st.pairIndex pkey (addToSet ((assocFind st.pairIndex pkey).getD []) i.nullifier) }

/-- Model of `RedisStorage::get_pending_intents` (src/solver/src/storage.rs
lines 249-270): resolve the pending set through `get_intent` and keep the
records that still satisfy `can_match`. -/
def get_pending_intents (now : Nat) (st : StoreState) : List Intent :=
  (st.pending.filterMap (get_intent now st)).filter (can_match now)

/-- Model of `RedisStorage::get_intents_by_pair` (src/solver/src/storage.rs
lines 273-293). -/
def get_intents_by_pair (now : Nat) (st : StoreState) (token_in token_out : String) :
    List Intent :=
  (((assocFind st.pairIndex (pairKey token_in token_out)).getD []).filterMap
    (get_intent now st)).filter (can_match now)

/-- Model of `RedisStorage::get_intents_by_user` (src/solver/src/storage.rs
lines 296-314): resolve the per-user set through `get_intent` with no
status filter. -/
def get_intents_by_user (now : Nat) (st : StoreState) (user : String) : List Intent :=
  ((assocFind st.userIndex (user_index_key user)).getD []).filterMap (get_intent now st)

/-- Model of `RedisStorage::update_intent_status` (src/solver/src/storage.rs
lines 317-354): read-modify-write of the primary record (a plain SET, so the
TTL is dropped), removing the nullifier from the pending set when the new
status is Matched or Settled; a missing record is an error and the body
returns before any write. -/
def update_intent_status (now : Nat) (st : StoreState) (nullifier : String)
    (status : IntentStatus) (matched_with : Option String)
    (settlement_tx_hash : Option String) : StoreState × Except String Unit :=
  match get_intent now st nullifier with
  | none => (st, .error ("Intent not found: " ++ nullifier))
  | some intent =>
    let i := { intent with
      status := status
      matched_with := matched_with
      settlement_tx_hash := settlement_tx_hash }
    let st1 := { st with intents := assocSet st.intents (intentKey nullifier) (none, i) }
    let st2 := if status = .matched ∨ status = .settled
               then { st1 with pending := st1.pending.erase nullifier }
               else st1
    (st2, .ok ())

/-! ### IntentGateway (src/solver/src/api.rs)

The HTTP handler `submit_intent` (api.rs lines 553-750) is embedded as a
state-passing function.  External effects that the handler awaits are
passed in as an environment: the outcome of the balance/allowance precheck
and of the proof preflight (both remote RPC), the base64 decoder (external
library), and the generated uuid.  The error component is the string error
code the handler returns. -/

structure SubmitIntentRequest where
  intent_hash : String
  nullifier : String
  proof_data : List String
  proof_public_inputs : List String
  public_inputs : PublicInputs
  encrypted_details : String
  signature : String
deriving DecidableEq, Repr

structure SubmitEnv where
  enforce_prechecks : Bool
  precheck : Except String Unit
  preflight : Except String Unit
  decode64 : String → Option (List Nat)
  new_id : String

/-- Model of `is_valid_signature` (src/solver/src/api.rs lines 1523-1532). -/
def is_valid_signature (signature : String) : Bool :=
  let trimmed := trimChars signature.data
  if ! leadsWith ['0', 'x'] trimmed || trimmed.length < 66 then false
  else (stripAll ['0', 'x'] trimmed).all isHexDigitC

/-- Upper bound of `chrono::DateTime::from_timestamp` on the seconds
argument; deadlines beyond it make the handler answer INVALID_DEADLINE. -/
def CHRONO_MAX_TS : Nat := 8210266876799

/-- The tail of the `submit_intent` handler after a successful nonce
reservation (src/solver/src/api.rs lines 696-750): base64-decode the
encrypted details, convert the deadline timestamp, build the Intent with
status Pending, and persist it. -/
def persist_intent (env : SubmitEnv) (now : Nat) (st1 : StoreState)
    (req : SubmitIntentRequest) : StoreState × Except String String :=
  match env.decode64 req.encrypted_details with
  | none => (st1, .error "INVALID_ENCODING")
  | some bytes =>
    if CHRONO_MAX_TS < req.public_inputs.deadline then (st1, .error "INVALID_DEADLINE")
    else
      let intent := Intent.new env.new_id req.intent_hash req.nullifier
        req.proof_data req.proof_public_inputs req.public_inputs bytes now
        req.public_inputs.deadline
      (store_intent now st1 intent, .ok intent.id)

/-- Model of the `submit_intent` handler (src/solver/src/api.rs lines
553-750): the admission pipeline in source order — syntactic validation,
optional funding precheck, duplicate-nullifier check, proof preflight,
nonce reservation, then decode-and-persist. -/
def submit_intent (env : SubmitEnv) (now : Nat) (st : StoreState)
    (req : SubmitIntentRequest) : StoreState × Except String String :=
  if req.proof_data = [] then (st, .error "INVALID_PROOF")
  else if req.proof_public_inputs ≠ [] ∧ req.proof_public_inputs.length < 3 then
    (st, .error "INVALID_PUBLIC_INPUTS")
  else if ! is_valid_signature req.signature then (st, .error "INVALID_SIGNATURE")
  else if trimChars req.public_inputs.chain_id.data = [] ∨
          trimChars req.public_inputs.domain_separator.data = [] then
    (st, .error "INVALID_INTENT_METADATA")
  else if req.public_inputs.deadline ≤ now then (st, .error "ERR_EXPIRED_INTENT")
  else
    match (if env.enforce_prechecks then env.precheck else .ok ()) with
    | .error code => (st, .error code)
    | .ok _ =>
      if (get_intent now st req.nullifier).isSome then (st, .error "DUPLICATE_INTENT")
      else
        match env.preflight with
        | .error _ => (st, .error "INVALID_PROOF")
        | .ok _ =>
          match reserve_nonce now st req.public_inputs.user req.public_inputs.nonce
              req.public_inputs.deadline with
          | (st1, false) => (st1, .error "ERR_NONCE_REPLAY")
          | (st1, true) => persist_intent env now st1 req

/-- The user filter of the legacy fallback in the `get_intents_by_user`
handler (src/solver/src/api.rs lines 1415-1424): compare by felt value when
both addresses parse, else ASCII-case-insensitively on the trimmed strings. -/
def user_matches_fallback (user : String) (i : Intent) : Bool :=
  match felt_from_hex (String.mk (trimChars user.data)),
        felt_from_hex (String.mk (trimChars i.public_inputs.user.data)) with
  | some a, some b => a == b
  | _, _ => eqIgnoreCase (trimChars i.public_inputs.user.data) (trimChars user.data)

/-- Model of the `get_intents_by_user` handler's intent selection
(src/solver/src/api.rs lines 1409-1427): the store's per-user lookup, and
when that comes back empty, the legacy fallback that scans the pending
intents and filters them by user.  (The handler then projects the selected
intents to views and sorts them; the claims verified here concern the
selection.) -/
def api_get_intents_by_user (now : Nat) (st : StoreState) (user : String) : List Intent :=
  let intents := get_intents_by_user now st user
  if intents.isEmpty then (get_pending_intents now st).filter (user_matches_fallback user)
  else intents

/-! ### Settlement calldata (src/solver/src/starknet.rs) -/

/-- Model of `public_inputs_to_felts` (src/solver/src/starknet.rs lines
501-515): the circuit's business layout
[user, token_in, token_out, amount_in, min_amount_out, deadline], each
entry parsed from the clear `public_inputs` fields (`Felt::from(u64)` on
the deadline is below the field prime). -/
def public_inputs_to_felts (pi : PublicInputs) : Except String (List Nat) :=
  match parse_felt_any pi.user with
  | .error e => .error e
  | .ok u =>
    match parse_felt_any pi.token_in with
    | .error e => .error e
    | .ok tin =>
      match parse_felt_any pi.token_out with
      | .error e => .error e
      | .ok tout =>
        match parse_amount_to_felt pi.amount_in (token_decimals pi.token_in) with
        | .error e => .error e
        | .ok amt =>
          match parse_amount_to_felt pi.min_amount_out (token_decimals pi.token_out) with
          | .error e => .error e
          | .ok mn => .ok [u, tin, tout, amt, mn, pi.deadline]

/-- Model of `append_intent_proof` (src/solver/src/starknet.rs lines
517-539), returning the felts appended for one intent: intent hash,
nullifier, length-prefixed proof data, then the length-prefixed business
public-inputs span rebuilt from the clear fields (never from
`proof_public_inputs`). -/
def append_intent_proof (i : Intent) : Except String (List Nat) :=
  match parse_felt_any i.intent_hash with
  | .error e => .error e
  | .ok hash =>
    match parse_felt_any i.nullifier with
    | .error e => .error e
    | .ok nul =>
      match i.proof_data.mapM parse_felt_any with
      | .error e => .error e
      | .ok pd =>
        match public_inputs_to_felts i.public_inputs with
        | .error e => .error e
        | .ok pub_inputs =>
          .ok ([hash, nul, pd.length] ++ pd ++ [pub_inputs.length] ++ pub_inputs)

/-! ### Concrete sample data used by counterexamples and witnesses -/

/-- Claim C4 (counterexample): at the boundary now = expires_at, can_match
still returns true for a Pending intent, refuting the claimed equivalence
with now < expires_at. -/
def c4Intent : Intent :=
  { id := "i4"
    intent_hash := "0x1"
    nullifier := "0xc4"
    proof_data := ["0x1"]
    proof_public_inputs := []
    public_inputs :=
      { user := "0xa", token_in := "0xt1", token_out := "0xt2", amount_in := "1"
        min_amount_out := "1", deadline := 100, nonce := 0, chain_id := "SN"
        domain_separator := "ds", version := 1 }
    encrypted_details := []
    status := .pending
    created_at := 50
    expires_at := 100
    matched_with := none
    settlement_tx_hash := none }

/-- Claim C3 (counterexample): two intents whose deadlines equal the current
time are still judged compatible (the code rejects only deadline < now),
refuting the claimed necessary condition deadline > now. -/
def c3A : Intent :=
  { id := "a3"
    intent_hash := "0x1"
    nullifier := "0xa3"
    proof_data := ["0x1"]
    proof_public_inputs := ["0", "0", "0", "100", "90"]
    public_inputs :=
      { user := "0xaaa", token_in := "0xt1", token_out := "0xt2", amount_in := "100"
        min_amount_out := "90", deadline := 100, nonce := 0, chain_id := "SN"
        domain_separator := "ds", version := 1 }
    encrypted_details := []
    status := .pending
    created_at := 10
    expires_at := 100
    matched_with := none
    settlement_tx_hash := none }

def c3B : Intent :=
  { c3A with
    id := "b3"
    nullifier := "0xb3"
    proof_public_inputs := ["0", "0", "0", "90", "100"]
    public_inputs :=
      { user := "0xbbb", token_in := "0xt2", token_out := "0xt1", amount_in := "90"
        min_amount_out := "100", deadline := 100, nonce := 0, chain_id := "SN"
        domain_separator := "ds", version := 1 } }

/-- Witness for append_intent_proof_spec applied at a concrete intent. -/
def c6Intent : Intent :=
  { id := "i6"
    intent_hash := "0x11"
    nullifier := "0x22"
    proof_data := ["0x33", "7"]
    proof_public_inputs := ["1", "2", "3"]
    public_inputs :=
      { user := "0x5", token_in := "0x6", token_out := "0x7", amount_in := "2"
        min_amount_out := "1", deadline := 90, nonce := 1, chain_id := "SN"
        domain_separator := "ds", version := 1 }
    encrypted_details := []
    status := .pending
    created_at := 10
    expires_at := 90
    matched_with := none
    settlement_tx_hash := none }

/-- Intents exercising the matcher tie-break: c2A seeks t1 -> t2; c2B1 and
c2B2 are equal-surplus counterparties differing in created_at. -/
def c2A : Intent :=
  { id := "a2"
    intent_hash := "0x1"
    nullifier := "0xa2"
    proof_data := ["0x1"]
    proof_public_inputs := ["0", "0", "0", "100", "90"]
    public_inputs :=
      { user := "0xaa2", token_in := "0xt1", token_out := "0xt2", amount_in := "100"
        min_amount_out := "90", deadline := 200, nonce := 0, chain_id := "SN"
        domain_separator := "ds", version := 1 }
    encrypted_details := []
    status := .pending
    created_at := 5
    expires_at := 200
    matched_with := none
    settlement_tx_hash := none }

def c2B1 : Intent :=
  { c2A with
    id := "b21"
    nullifier := "0xb21"
    proof_public_inputs := ["0", "0", "0", "90", "100"]
    public_inputs :=
      { user := "0xbb1", token_in := "0xt2", token_out := "0xt1", amount_in := "90"
        min_amount_out := "100", deadline := 200, nonce := 0, chain_id := "SN"
        domain_separator := "ds", version := 1 }
    created_at := 10 }

def c2B2 : Intent :=
  { c2B1 with
    id := "b22"
    nullifier := "0xb22"
    public_inputs := { c2B1.public_inputs with user := "0xbb2" }
    created_at := 20 }

/-- Intents exercising the f64 collapse of the surplus ranking: c2G1 and
c2G2 have exact surpluses 2^60 + 2^53 and 2^60 + 2^53 + 1 against c2F,
which round to the same double. -/
def c2F : Intent :=
  { c2A with
    id := "f2"
    nullifier := "0xf2"
    proof_public_inputs := ["0", "0", "0", "1152921504606846976", "0"]
    public_inputs :=
      { user := "0xff2", token_in := "0xt1", token_out := "0xt2"
        amount_in := "1", min_amount_out := "0", deadline := 200, nonce := 0
        chain_id := "SN", domain_separator := "ds", version := 1 } }

def c2G1 : Intent :=
  { c2A with
    id := "g21"
    nullifier := "0xg21"
    proof_public_inputs := ["0", "0", "0", "9007199254740992", "0"]
    public_inputs :=
      { user := "0xgg1", token_in := "0xt2", token_out := "0xt1"
        amount_in := "1", min_amount_out := "0", deadline := 200, nonce := 0
        chain_id := "SN", domain_separator := "ds", version := 1 }
    created_at := 10 }

def c2G2 : Intent :=
  { c2G1 with
    id := "g22"
    nullifier := "0xg22"
    proof_public_inputs := ["0", "0", "0", "9007199254740993", "0"]
    public_inputs := { c2G1.public_inputs with user := "0xgg2" }
    created_at := 20 }

/-- Concrete environment and requests for the nonce-replay witness. -/
def c1Env : SubmitEnv :=
  { enforce_prechecks := false
    precheck := .ok ()
    preflight := .ok ()
    decode64 := fun _ => some []
    new_id := "id1" }

def c1Req1 : SubmitIntentRequest :=
  { intent_hash := "0x1"
    nullifier := "0xn1"
    proof_data := ["0x1"]
    proof_public_inputs := []
    public_inputs :=
      { user := "0xabc1", token_in := "0xt1", token_out := "0xt2", amount_in := "1"
        min_amount_out := "1", deadline := 100, nonce := 5, chain_id := "SN"
        domain_separator := "ds", version := 1 }
    encrypted_details := ""
    signature := "0x1111111111111111111111111111111111111111111111111111111111111111" }

def c1Req2 : SubmitIntentRequest :=
  { c1Req1 with
    nullifier := "0xn2"
    public_inputs := { c1Req1.public_inputs with deadline := 120 } }

/-! ### General lemmas about the string helpers -/

theorem leadsWith_nil (l : List Char) : leadsWith [] l = true := by
  cases l <;> rfl

theorem leadsWith_cons (a b : Char) (as bs : List Char) :
    leadsWith (a :: as) (b :: bs) = (a == b && leadsWith as bs) := rfl

theorem dropWhile_eq_self_of_not (p : Char → Bool) (l : List Char)
    (h : ∀ c ∈ l, p c = false) : l.dropWhile p = l := by
  cases l with
  | nil => rfl
  | cons c rest =>
    rw [List.dropWhile_cons]
    simp [h c (List.mem_cons_self c rest)]

/-- Trimming leaves a whitespace-free character list unchanged. -/
theorem trimChars_eq_self (l : List Char) (h : ∀ c ∈ l, isWs c = false) :
    trimChars l = l := by
  unfold trimChars
  rw [dropWhile_eq_self_of_not _ _ h]
  rw [dropWhile_eq_self_of_not _ _ (fun c hc => h c (List.mem_reverse.mp hc))]
  exact List.reverse_reverse l

theorem isDigitC_not_ws (c : Char) (h : isDigitC c = true) : isWs c = false := by
  simp only [isDigitC, Bool.and_eq_true, decide_eq_true_eq] at h
  simp only [isWs, Bool.or_eq_false_iff, decide_eq_false_iff_not]
  omega

theorem isHexDigitC_not_ws (c : Char) (h : isHexDigitC c = true) : isWs c = false := by
  simp only [isHexDigitC, Bool.or_eq_true, Bool.and_eq_true, decide_eq_true_eq] at h
  simp only [isWs, Bool.or_eq_false_iff, decide_eq_false_iff_not]
  omega

theorem isDigitC_ne_dot (c : Char) (h : isDigitC c = true) : ¬ (c = '.') := by
  intro hc
  subst hc
  simp [isDigitC] at h

/-- An all-digit character list never carries the 0x marker: its second
character cannot be x or X. -/
theorem startsHex_digits (l : List Char) (h : l.all isDigitC = true) :
    startsHex l = false := by
  unfold startsHex
  match l with
  | [] => rfl
  | [c] => simp [leadsWith]
  | c :: d :: rest =>
    simp only [List.all_cons, Bool.and_eq_true] at h
    have hd := h.2.1
    simp only [isDigitC, Bool.and_eq_true, decide_eq_true_eq] at hd
    have hx : ('x' == d) = false := by
      refine beq_eq_false_iff_ne.mpr ?_
      intro he
      rw [← he] at hd
      exact absurd hd (by decide)
    have hX : ('X' == d) = false := by
      refine beq_eq_false_iff_ne.mpr ?_
      intro he
      rw [← he] at hd
      exact absurd hd (by decide)
    simp [leadsWith, hx, hX]

/-- splitOnce finds no separator in a list free of it. -/
theorem splitOnce_eq_none (sep : Char) (l : List Char) (h : ∀ c ∈ l, ¬ (c = sep)) :
    splitOnce sep l = none := by
  induction l with
  | nil => rfl
  | cons c rest ih =>
    unfold splitOnce
    rw [if_neg (h c (List.mem_cons_self c rest))]
    rw [ih (fun d hd => h d (List.mem_cons_of_mem c hd))]

theorem splitOnce_cons (sep c : Char) (l : List Char) :
    splitOnce sep (c :: l) =
      if c = sep then some ([], l)
      else
        match splitOnce sep l with
        | some (a, b) => some (c :: a, b)
        | none => none := rfl

/-- splitOnce splits at the first separator. -/
theorem splitOnce_append (sep : Char) (ip fp : List Char)
    (h : ∀ c ∈ ip, ¬ (c = sep)) :
    splitOnce sep (ip ++ sep :: fp) = some (ip, fp) := by
  induction ip with
  | nil => simp [splitOnce]
  | cons c rest ih =>
    rw [List.cons_append, splitOnce_cons, if_neg (h c (List.mem_cons_self c rest))]
    rw [ih (fun d hd => h d (List.mem_cons_of_mem c hd))]

theorem leadsWith_self_append (pat l : List Char) : leadsWith pat (pat ++ l) = true := by
  induction pat with
  | nil => exact leadsWith_nil l
  | cons c rest ih => simp [leadsWith, ih]

theorem stripAllGo_eq_self (pat : List Char) (fuel : Nat) (m : List Char)
    (h : leadsWith pat m = false) : stripAllGo pat fuel m = m := by
  cases fuel with
  | zero => rfl
  | succ f =>
    unfold stripAllGo
    rw [if_neg]
    intro hc
    rw [h] at hc
    exact absurd hc.2 (by simp)

theorem stripAll_eq_self (pat l : List Char) (h : leadsWith pat l = false) :
    stripAll pat l = l :=
  stripAllGo_eq_self pat l.length l h

/-- stripAll on a list headed by the (non-repeating) pattern strips exactly
one copy. -/
theorem stripAll_once (pat l : List Char) (hp : pat ≠ [])
    (hrest : leadsWith pat l = false) :
    stripAll pat (pat ++ l) = l := by
  unfold stripAll
  have hpl : 0 < pat.length := List.length_pos.mpr hp
  have hlen : (pat ++ l).length = (pat.length - 1 + l.length) + 1 := by
    rw [List.length_append]
    omega
  rw [hlen]
  unfold stripAllGo
  rw [if_pos (And.intro hp (leadsWith_self_append pat l))]
  rw [List.drop_left]
  exact stripAllGo_eq_self pat _ l hrest

/-- A hex-digit list cannot begin with the two-character marker 0x or 0X
(x and X are not hex digits). -/
theorem leadsWith_marker_hexdigits (m : Char) (hm : isHexDigitC m = false)
    (l : List Char) (h : l.all isHexDigitC = true) :
    leadsWith ['0', m] l = false := by
  match l with
  | [] => rfl
  | [c] => simp [leadsWith]
  | c :: d :: rest =>
    simp only [List.all_cons, Bool.and_eq_true] at h
    have hmd : (m == d) = false := by
      refine beq_eq_false_iff_ne.mpr ?_
      intro he
      rw [he] at hm
      rw [h.2.1] at hm
      simp at hm
    simp [leadsWith, hmd]

theorem x_not_hexdigit : isHexDigitC 'x' = false := by decide

theorem X_not_hexdigit : isHexDigitC 'X' = false := by decide

/-- The hex-marker stripper leaves a pure hex-digit body unchanged. -/
theorem stripHexMarker_digits (l : List Char) (h : l.all isHexDigitC = true) :
    stripHexMarker l = l := by
  unfold stripHexMarker
  rw [stripAll_eq_self _ _ (leadsWith_marker_hexdigits 'x' x_not_hexdigit l h)]
  exact stripAll_eq_self _ _ (leadsWith_marker_hexdigits 'X' X_not_hexdigit l h)

/-- The hex-marker stripper on 0x followed by a hex body yields the body. -/
theorem stripHexMarker_0x (l : List Char) (h : l.all isHexDigitC = true) :
    stripHexMarker ('0' :: 'x' :: l) = l := by
  unfold stripHexMarker
  have h1 : stripAll ['0', 'x'] ('0' :: 'x' :: l) = l := by
    have := stripAll_once ['0', 'x'] l (by simp)
      (leadsWith_marker_hexdigits 'x' x_not_hexdigit l h)
    simpa using this
  rw [h1]
  exact stripAll_eq_self _ _ (leadsWith_marker_hexdigits 'X' X_not_hexdigit l h)

/-- An all-digit or digit-and-dot character list never carries the 0x marker. -/
theorem startsHex_false_of_no_x (l : List Char)
    (h : ∀ c ∈ l, isDigitC c = true ∨ c = '.') : startsHex l = false := by
  unfold startsHex
  match l with
  | [] => rfl
  | [c] => simp [leadsWith]
  | c :: d :: rest =>
    have hd := h d (List.mem_cons_of_mem c (List.mem_cons_self d rest))
    have hx : ('x' == d) = false := by
      refine beq_eq_false_iff_ne.mpr ?_
      intro he
      rcases hd with hd | hd
      · rw [← he] at hd; exact absurd hd (by decide)
      · rw [← he] at hd; exact absurd hd (by decide)
    have hX : ('X' == d) = false := by
      refine beq_eq_false_iff_ne.mpr ?_
      intro he
      rcases hd with hd | hd
      · rw [← he] at hd; exact absurd hd (by decide)
      · rw [← he] at hd; exact absurd hd (by decide)
    simp [leadsWith, hx, hX]

theorem digitsVal_append_one (l : List Char) (c : Char) :
    digitsVal (l ++ [c]) = digitsVal l * 10 + digitVal c := by
  unfold digitsVal
  rw [List.foldl_append]
  rfl

/-- Right-padding a digit string with k zeros multiplies its value by 10^k. -/
theorem digitsVal_pad (l : List Char) (k : Nat) :
    digitsVal (l ++ List.replicate k '0') = digitsVal l * 10 ^ k := by
  induction k with
  | zero => simp
  | succ n ih =>
    rw [List.replicate_succ', ← List.append_assoc, digitsVal_append_one, ih]
    show digitsVal l * 10 ^ n * 10 + 0 = digitsVal l * 10 ^ (n + 1)
    rw [pow_succ]
    ring

theorem fracPadVal_eq (fp : List Char) (d : Nat) :
    fracPadVal fp d = digitsVal fp * 10 ^ (d - fp.length) := by
  show (if fp ++ List.replicate (d - fp.length) '0' = [] then 0
        else digitsVal (fp ++ List.replicate (d - fp.length) '0')) =
       digitsVal fp * 10 ^ (d - fp.length)
  split
  · rename_i hnil
    have h1 : fp = [] := (List.append_eq_nil.mp hnil).1
    subst h1
    simp [digitsVal]
  · exact digitsVal_pad fp (d - fp.length)

theorem trimChars_hex_prefixed (h : List Char) (hall : h.all isHexDigitC = true) :
    trimChars ('0' :: 'x' :: h) = '0' :: 'x' :: h := by
  have hall' := List.all_eq_true.mp hall
  refine trimChars_eq_self _ ?_
  intro c hc
  rcases List.mem_cons.mp hc with rfl | hc
  · decide
  rcases List.mem_cons.mp hc with rfl | hc
  · decide
  · exact isHexDigitC_not_ws c (hall' c hc)

theorem startsHex_hex_prefixed (h : List Char) :
    startsHex ('0' :: 'x' :: h) = true := by
  have h1 := leadsWith_self_append ['0', 'x'] h
  simp only [List.cons_append, List.nil_append] at h1
  simp [startsHex, h1]

theorem feltAnyCore_hex (h : List Char) (hne : h ≠ []) (hall : h.all isHexDigitC = true) :
    feltAnyCore ('0' :: 'x' :: h) = .ok (hexVal h % STARK_PRIME) := by
  unfold feltAnyCore
  rw [if_neg (by simp)]
  rw [if_pos (startsHex_hex_prefixed h)]
  rw [stripHexMarker_0x h hall]
  unfold hexVal?
  rw [if_pos (And.intro hne hall)]

theorem feltAnyCore_digits (d : List Char) (hne : d ≠ []) (hall : d.all isDigitC = true) :
    feltAnyCore d = .ok (digitsVal d % STARK_PRIME) := by
  unfold feltAnyCore
  rw [if_neg hne]
  rw [if_neg (by simp [startsHex_digits d hall])]
  unfold digitsVal?
  rw [if_pos (And.intro hne hall)]

/-- Claim C7: for every non-empty numeric input (0x-prefixed hex or decimal),
parse_felt_any returns the parsed integer reduced modulo the Starknet field
prime; in particular a 256-bit input larger than the prime yields the residue
rather than an error. -/
theorem parse_felt_any_mod_prime :
    (∀ h : List Char, h ≠ [] → h.all isHexDigitC = true →
      parse_felt_any (String.mk ('0' :: 'x' :: h)) = .ok (hexVal h % STARK_PRIME)) ∧
    (∀ d : List Char, d ≠ [] → d.all isDigitC = true →
      parse_felt_any (String.mk d) = .ok (digitsVal d % STARK_PRIME)) ∧
    parse_felt_any "0xffffffffffffffffffffffffffffffffffffffffffffffffffffffffffffffff" =
      .ok ((2 ^ 256 - 1) % STARK_PRIME) ∧
    STARK_PRIME < 2 ^ 256 - 1 := by
  refine ⟨?hex, ?dec, by rfl, by decide⟩
  case hex =>
    intro h hne hall
    show feltAnyCore (trimChars ('0' :: 'x' :: h)) = .ok (hexVal h % STARK_PRIME)
    rw [trimChars_hex_prefixed h hall]
    exact feltAnyCore_hex h hne hall
  case dec =>
    intro d hne hall
    have hall' := List.all_eq_true.mp hall
    have hnw : ∀ c ∈ d, isWs c = false := fun c hc => isDigitC_not_ws c (hall' c hc)
    show feltAnyCore (trimChars d) = .ok (digitsVal d % STARK_PRIME)
    rw [trimChars_eq_self _ hnw]
    exact feltAnyCore_digits d hne hall

/-- Witness for parse_felt_any_mod_prime: its universally quantified parts
applied at concrete inputs. -/
theorem parse_felt_any_mod_prime_witness :
    parse_felt_any (String.mk ['0', 'x', 'f', 'f']) = .ok (255 % STARK_PRIME) ∧
    parse_felt_any (String.mk ['4', '2']) = .ok (42 % STARK_PRIME) := by
  constructor
  · exact parse_felt_any_mod_prime.1 ['f', 'f'] (by decide) (by decide)
  · exact parse_felt_any_mod_prime.2.1 ['4', '2'] (by decide) (by decide)

/-- Claim C8: parse_amount_to_base_units takes 0x-hex input directly as base
units, multiplies an all-digit integer by 10^decimals, scales a decimal
fraction with k ≤ decimals fractional digits as int * 10^d + frac * 10^(d-k),
rejects k > decimals, and on "0.01" yields 10000 with 6 decimals and
10000000000000000 with 18 decimals. -/
theorem parse_amount_to_base_units_spec :
    (∀ (h : List Char) (d : Nat), h ≠ [] → h.all isHexDigitC = true →
      parse_amount_to_base_units (String.mk ('0' :: 'x' :: h)) d = .ok (hexVal h)) ∧
    (∀ (v : List Char) (d : Nat), v ≠ [] → v.all isDigitC = true →
      parse_amount_to_base_units (String.mk v) d = .ok (digitsVal v * 10 ^ d)) ∧
    (∀ (ip fp : List Char) (d : Nat), ip ≠ [] → ip.all isDigitC = true →
      fp.all isDigitC = true → fp.length ≤ d →
      parse_amount_to_base_units (String.mk (ip ++ '.' :: fp)) d =
        .ok (digitsVal ip * 10 ^ d + digitsVal fp * 10 ^ (d - fp.length))) ∧
    (∀ (ip fp : List Char) (d : Nat), ip ≠ [] → ip.all isDigitC = true →
      fp.all isDigitC = true → d < fp.length →
      parse_amount_to_base_units (String.mk (ip ++ '.' :: fp)) d =
        .error "too many decimals") ∧
    parse_amount_to_base_units "0.01" 6 = .ok 10000 ∧
    parse_amount_to_base_units "0.01" 18 = .ok 10000000000000000 := by
  refine ⟨?hex, ?int, ?frac, ?toomany, by rfl, by rfl⟩
  case hex =>
    intro h d hne hall
    unfold parse_amount_to_base_units
    rw [show (String.mk ('0' :: 'x' :: h)).data = '0' :: 'x' :: h from rfl]
    rw [trimChars_hex_prefixed h hall]
    rw [if_neg (by simp)]
    rw [if_pos (startsHex_hex_prefixed h)]
    rw [stripHexMarker_0x h hall]
    unfold hexVal?
    rw [if_pos (And.intro hne hall)]
  case int =>
    intro v d hne hall
    have hall' := List.all_eq_true.mp hall
    have hnw : ∀ c ∈ v, isWs c = false := fun c hc => isDigitC_not_ws c (hall' c hc)
    unfold parse_amount_to_base_units
    rw [show (String.mk v).data = v from rfl]
    rw [trimChars_eq_self _ hnw]
    rw [if_neg hne]
    rw [if_neg (by simp [startsHex_digits v hall])]
    rw [splitOnce_eq_none '.' v (fun c hc => isDigitC_ne_dot c (hall' c hc))]
    rw [if_pos hall]
  case frac =>
    intro ip fp d hne hip hfp hlen
    have hip' := List.all_eq_true.mp hip
    have hfp' := List.all_eq_true.mp hfp
    have hmem : ∀ c ∈ ip ++ '.' :: fp, isDigitC c = true ∨ c = '.' := by
      intro c hc
      rcases List.mem_append.mp hc with hc | hc
      · exact Or.inl (hip' c hc)
      rcases List.mem_cons.mp hc with rfl | hc
      · exact Or.inr rfl
      · exact Or.inl (hfp' c hc)
    have hnw : ∀ c ∈ ip ++ '.' :: fp, isWs c = false := by
      intro c hc
      rcases hmem c hc with h | rfl
      · exact isDigitC_not_ws c h
      · decide
    unfold parse_amount_to_base_units
    rw [show (String.mk (ip ++ '.' :: fp)).data = ip ++ '.' :: fp from rfl]
    rw [trimChars_eq_self _ hnw]
    rw [if_neg (by simp [hne])]
    rw [if_neg (by simp [startsHex_false_of_no_x _ hmem])]
    simp only [splitOnce_append '.' ip fp (fun c hc => isDigitC_ne_dot c (hip' c hc))]
    rw [if_neg (by simp [hne, hip])]
    rw [if_neg (by simp [hfp])]
    rw [if_neg (by omega)]
    rw [fracPadVal_eq]
  case toomany =>
    intro ip fp d hne hip hfp hlen
    have hip' := List.all_eq_true.mp hip
    have hfp' := List.all_eq_true.mp hfp
    have hmem : ∀ c ∈ ip ++ '.' :: fp, isDigitC c = true ∨ c = '.' := by
      intro c hc
      rcases List.mem_append.mp hc with hc | hc
      · exact Or.inl (hip' c hc)
      rcases List.mem_cons.mp hc with rfl | hc
      · exact Or.inr rfl
      · exact Or.inl (hfp' c hc)
    have hnw : ∀ c ∈ ip ++ '.' :: fp, isWs c = false := by
      intro c hc
      rcases hmem c hc with h | rfl
      · exact isDigitC_not_ws c h
      · decide
    unfold parse_amount_to_base_units
    rw [show (String.mk (ip ++ '.' :: fp)).data = ip ++ '.' :: fp from rfl]
    rw [trimChars_eq_self _ hnw]
    rw [if_neg (by simp [hne])]
    rw [if_neg (by simp [startsHex_false_of_no_x _ hmem])]
    simp only [splitOnce_append '.' ip fp (fun c hc => isDigitC_ne_dot c (hip' c hc))]
    rw [if_neg (by simp [hne, hip])]
    rw [if_neg (by simp [hfp])]
    rw [if_pos hlen]

/-- Witness for parse_amount_to_base_units_spec: the quantified parts applied
at concrete inputs. -/
theorem parse_amount_to_base_units_spec_witness :
    parse_amount_to_base_units (String.mk ['0', 'x', '1', 'f']) 6 = .ok 31 ∧
    parse_amount_to_base_units (String.mk ['7']) 2 = .ok 700 ∧
    parse_amount_to_base_units (String.mk (['0'] ++ '.' :: ['0', '1'])) 6 = .ok 10000 ∧
    parse_amount_to_base_units (String.mk (['1'] ++ '.' :: ['2', '3'])) 1 =
      .error "too many decimals" := by
  refine ⟨?_, ?_, ?_, ?_⟩
  · exact parse_amount_to_base_units_spec.1 ['1', 'f'] 6 (by decide) (by decide)
  · exact parse_amount_to_base_units_spec.2.1 ['7'] 2 (by decide) (by decide)
  · exact parse_amount_to_base_units_spec.2.2.1 ['0'] ['0', '1'] 6 (by decide) (by decide)
      (by decide) (by decide)
  · exact parse_amount_to_base_units_spec.2.2.2.1 ['1'] ['2', '3'] 1 (by decide) (by decide)
      (by decide) (by decide)

/-- Claim C4 fails as stated: a Pending intent whose expires_at equals the
current time satisfies can_match, yet now < expires_at is false (the code
tests is_expired, i.e. now > expires_at). -/
theorem can_match_boundary_counterexample :
    can_match 100 c4Intent = true ∧
    c4Intent.status = .pending ∧ ¬ (100 < c4Intent.expires_at) := by
  refine ⟨rfl, rfl, by decide⟩

/-- Claim C4 (amended): can_match(i) holds iff i.status = Pending and
now ≤ i.expires_at (the source rejects only strictly past expiries). -/
theorem can_match_iff (now : Nat) (i : Intent) :
    can_match now i = true ↔ (i.status = .pending ∧ now ≤ i.expires_at) := by
  unfold can_match Intent.is_expired
  simp only [Bool.and_eq_true, decide_eq_true_eq, Bool.not_eq_true',
    decide_eq_false_iff_not, Nat.not_lt]

/-- Claim C3 fails as stated: are_compatible accepts a pair whose deadlines
equal now, though the claim requires deadline > now for compatibility. -/
theorem are_compatible_deadline_counterexample :
    are_compatible 100 c3A c3B = true ∧
    ¬ (100 < c3A.public_inputs.deadline) ∧ ¬ (100 < c3B.public_inputs.deadline) :=
  ⟨rfl, by decide, by decide⟩

/-- Claim C3 (amended): are_compatible(a, b) holds iff the users differ, the
tokens are complementary, both base-unit amount tuples are computable with
amount_a_in ≥ min_b_out and amount_b_in ≥ min_a_out, and both deadlines
satisfy deadline ≥ now. -/
theorem are_compatible_iff (now : Nat) (a b : Intent) :
    are_compatible now a b = true ↔
      (¬ (a.public_inputs.user = b.public_inputs.user) ∧
       a.public_inputs.token_in = b.public_inputs.token_out ∧
       a.public_inputs.token_out = b.public_inputs.token_in ∧
       (∃ pa pb, amounts_in_base_units a = some pa ∧ amounts_in_base_units b = some pb ∧
          pb.2 ≤ pa.1 ∧ pa.2 ≤ pb.1) ∧
       now ≤ a.public_inputs.deadline ∧ now ≤ b.public_inputs.deadline) := by
  unfold are_compatible
  rcases ha : amounts_in_base_units a with _ | ⟨pa1, pa2⟩ <;>
    rcases hb : amounts_in_base_units b with _ | ⟨pb1, pb2⟩
  · simp [ha, hb]
  · simp [ha, hb]
  · simp [ha, hb]
  · simp only [ha, hb, beq_iff_eq, bne_iff_ne, ne_eq, Bool.or_eq_true, decide_eq_true_eq]
    split_ifs with h1 h2 h3 h4
    · constructor
      · intro hx; simp at hx
      · rintro ⟨hu, _⟩; exact absurd h1 hu
    · constructor
      · intro hx; simp at hx
      · rintro ⟨_, ht1, ht2, _⟩
        rcases h2 with h2 | h2
        · exact absurd ht1 h2
        · exact absurd ht2 h2
    · constructor
      · intro hx; simp at hx
      · rintro ⟨_, _, _, ⟨pa, pb, hpa, hpb, hle1, hle2⟩, _⟩
        have hpa' := Option.some.inj hpa
        have hpb' := Option.some.inj hpb
        subst hpa'
        subst hpb'
        rcases h3 with h3 | h3 <;> omega
    · constructor
      · intro hx; simp at hx
      · rintro ⟨_, _, _, _, hda, hdb⟩
        rcases h4 with h4 | h4 <;> omega
    · push_neg at h2 h3 h4
      constructor
      · intro _
        exact ⟨h1, h2.1, h2.2,
          ⟨(pa1, pa2), (pb1, pb2), rfl, rfl, by omega, by omega⟩, by omega, by omega⟩
      · intro _; rfl

/-- Claim C10: update_intent_status on a nullifier with no stored record
returns an error and leaves the store unchanged (no primary write, pending
set untouched). -/
theorem update_intent_status_missing (now : Nat) (st : StoreState) (n : String)
    (status : IntentStatus) (mw tx : Option String)
    (h : get_intent now st n = none) :
    update_intent_status now st n status mw tx =
      (st, .error ("Intent not found: " ++ n)) := by
  unfold update_intent_status
  rw [h]

/-- Witness for update_intent_status_missing at the empty store. -/
theorem update_intent_status_missing_witness :
    update_intent_status 0 {} "nf" .matched none none =
      ({}, .error "Intent not found: nf") :=
  update_intent_status_missing 0 {} "nf" .matched none none rfl

/-- Claim C9: the per-user query resolves the per-user index with no status
filtering, and the handler falls back to scanning pending intents filtered
by user exactly when the index-based lookup comes back empty. -/
theorem get_intents_by_user_fallback (now : Nat) (st : StoreState) (user : String) :
    (∀ i : Intent, i ∈ get_intents_by_user now st user ↔
      ∃ n ∈ (assocFind st.userIndex (user_index_key user)).getD [],
        get_intent now st n = some i) ∧
    (get_intents_by_user now st user ≠ [] →
      api_get_intents_by_user now st user = get_intents_by_user now st user) ∧
    (get_intents_by_user now st user = [] →
      api_get_intents_by_user now st user =
        (get_pending_intents now st).filter (user_matches_fallback user)) := by
  refine ⟨?_, ?_, ?_⟩
  · intro i
    unfold get_intents_by_user
    exact List.mem_filterMap
  · intro h
    unfold api_get_intents_by_user
    rw [if_neg]
    simpa using h
  · intro h
    unfold api_get_intents_by_user
    rw [if_pos]
    simpa using h

/-- Witness for get_intents_by_user_fallback: at the empty store the lookup
is empty, so the fallback branch is taken (and also returns nothing). -/
theorem get_intents_by_user_fallback_witness :
    api_get_intents_by_user 0 {} "0xabc" = [] :=
  (get_intents_by_user_fallback 0 {} "0xabc").2.2 rfl

/-- Claim C5: in the settlement retry loop, a funding-error failure bumps the
pair's failure counter and schedules next_retry_at = now + backoff(failures),
where backoff(f) = 0 for f < 3 and min(300 * 2^(f-3), 3600) otherwise; the
third failure schedules now + 300, and a pair whose retry state has
next_retry_at > now is skipped without a settlement attempt. -/
theorem retry_backoff_spec :
    (∀ f : Nat, compute_backoff_secs f =
      if f < 3 then 0 else min (300 * 2 ^ (f - 3)) 3600) ∧
    (∀ (now : Nat) (s : MatchRetryState) (r : Except String Unit),
      now < s.next_retry_at_unix → retry_step now (some s) r = (some s, false)) ∧
    (∀ (now : Nat) (st : Option MatchRetryState) (msg : String),
      (st = none ∨ ∃ s, st = some s ∧ s.next_retry_at_unix ≤ now) →
      is_funding_error msg = true →
      retry_step now st (.error msg) =
        (some { failures := (st.map (·.failures)).getD 0 + 1
                next_retry_at_unix :=
                  now + compute_backoff_secs ((st.map (·.failures)).getD 0 + 1)
                terminal := false }, true)) ∧
    (∀ (now t : Nat) (b : Bool), t ≤ now →
      retry_step now (some ⟨2, t, b⟩) (.error "INSUFFICIENT_ALLOWANCE") =
        (some ⟨3, now + 300, false⟩, true)) := by
  refine ⟨?backoff, ?skip, ?bump, ?third⟩
  case backoff =>
    intro f
    unfold compute_backoff_secs
    by_cases hf : f < 3
    · rw [if_pos hf, if_pos hf]
    · rw [if_neg hf, if_neg hf]
      by_cases he : f - 3 ≤ 6
      · rw [min_eq_left he]
      · push_neg at he
        rw [min_eq_right (by omega : (6 : Nat) ≤ f - 3)]
        have hp : (2 : Nat) ^ 7 ≤ 2 ^ (f - 3) :=
          Nat.pow_le_pow_right (by norm_num) (by omega)
        have h2 : (3600 : Nat) ≤ 300 * 2 ^ (f - 3) :=
          le_trans (by norm_num) (Nat.mul_le_mul_left 300 hp)
        have hL : min (300 * 2 ^ (6 : Nat)) 3600 = 3600 := by norm_num
        rw [hL, min_eq_right h2]
  case skip =>
    intro now s r h
    show (if now < s.next_retry_at_unix then (some s, false)
          else retry_attempt now (some s) r) = (some s, false)
    rw [if_pos h]
  case bump =>
    intro now st msg hst hmsg
    rcases hst with rfl | ⟨s, rfl, hs⟩
    · show retry_attempt now none (.error msg) = _
      unfold retry_attempt
      show (if is_funding_error msg = true then _ else _) = _
      rw [if_pos hmsg]
      rfl
    · show (if now < s.next_retry_at_unix then (some s, false)
            else retry_attempt now (some s) (.error msg)) = _
      rw [if_neg (by omega)]
      unfold retry_attempt
      show (if is_funding_error msg = true then _ else _) = _
      rw [if_pos hmsg]
      rfl
  case third =>
    intro now t b ht
    show (if now < (⟨2, t, b⟩ : MatchRetryState).next_retry_at_unix
          then (some ⟨2, t, b⟩, false)
          else retry_attempt now (some ⟨2, t, b⟩) (.error "INSUFFICIENT_ALLOWANCE")) = _
    rw [if_neg (by simp; omega)]
    unfold retry_attempt
    show (if is_funding_error "INSUFFICIENT_ALLOWANCE" = true then _ else _) = _
    rw [if_pos (by decide)]
    rfl

/-- Witness for retry_backoff_spec: a live next_retry_at skips the pair, and
a third funding failure schedules a 300-second backoff. -/
theorem retry_backoff_spec_witness :
    retry_step 5 (some ⟨1, 10, false⟩) (.ok ()) = (some ⟨1, 10, false⟩, false) ∧
    retry_step 7 (some ⟨2, 3, false⟩) (.error "INSUFFICIENT_ALLOWANCE") =
      (some ⟨3, 307, false⟩, true) := by
  constructor
  · exact retry_backoff_spec.2.1 5 ⟨1, 10, false⟩ (.ok ()) (by decide)
  · exact retry_backoff_spec.2.2.2 7 3 false (by omega)

/-- Claim C6: the settle_match calldata appends for each intent a
length-prefixed public-inputs span that is exactly
[user, token_in, token_out, amount_in_base_units, min_amount_out_base_units,
deadline] rebuilt from the clear public_inputs fields, and the appended
felts never depend on proof_public_inputs. -/
theorem append_intent_proof_spec :
    (∀ (i : Intent) (hash nul : Nat) (pd pis : List Nat),
      parse_felt_any i.intent_hash = .ok hash →
      parse_felt_any i.nullifier = .ok nul →
      i.proof_data.mapM parse_felt_any = .ok pd →
      public_inputs_to_felts i.public_inputs = .ok pis →
      append_intent_proof i = .ok ([hash, nul, pd.length] ++ pd ++ [pis.length] ++ pis) ∧
      pis.length = 6 ∧
      ∃ u tin tout amt mn,
        parse_felt_any i.public_inputs.user = .ok u ∧
        parse_felt_any i.public_inputs.token_in = .ok tin ∧
        parse_felt_any i.public_inputs.token_out = .ok tout ∧
        parse_amount_to_felt i.public_inputs.amount_in
          (token_decimals i.public_inputs.token_in) = .ok amt ∧
        parse_amount_to_felt i.public_inputs.min_amount_out
          (token_decimals i.public_inputs.token_out) = .ok mn ∧
        pis = [u, tin, tout, amt, mn, i.public_inputs.deadline]) ∧
    (∀ (i : Intent) (ppi : List String),
      append_intent_proof { i with proof_public_inputs := ppi } =
        append_intent_proof i) := by
  constructor
  · intro i hash nul pd pis hhash hnul hpd hpis
    have hinv : pis.length = 6 ∧
        ∃ u tin tout amt mn,
          parse_felt_any i.public_inputs.user = .ok u ∧
          parse_felt_any i.public_inputs.token_in = .ok tin ∧
          parse_felt_any i.public_inputs.token_out = .ok tout ∧
          parse_amount_to_felt i.public_inputs.amount_in
            (token_decimals i.public_inputs.token_in) = .ok amt ∧
          parse_amount_to_felt i.public_inputs.min_amount_out
            (token_decimals i.public_inputs.token_out) = .ok mn ∧
          pis = [u, tin, tout, amt, mn, i.public_inputs.deadline] := by
      unfold public_inputs_to_felts at hpis
      cases hu : parse_felt_any i.public_inputs.user with
      | error e => rw [hu] at hpis; simp at hpis
      | ok u =>
      rw [hu] at hpis
      cases htin : parse_felt_any i.public_inputs.token_in with
      | error e => rw [htin] at hpis; simp at hpis
      | ok tin =>
      rw [htin] at hpis
      cases htout : parse_felt_any i.public_inputs.token_out with
      | error e => rw [htout] at hpis; simp at hpis
      | ok tout =>
      rw [htout] at hpis
      cases hamt : parse_amount_to_felt i.public_inputs.amount_in
          (token_decimals i.public_inputs.token_in) with
      | error e => rw [hamt] at hpis; simp at hpis
      | ok amt =>
      rw [hamt] at hpis
      cases hmn : parse_amount_to_felt i.public_inputs.min_amount_out
          (token_decimals i.public_inputs.token_out) with
      | error e => rw [hmn] at hpis; simp at hpis
      | ok mn =>
      rw [hmn] at hpis
      simp only [Except.ok.injEq] at hpis
      subst hpis
      exact ⟨rfl, u, tin, tout, amt, mn, rfl, rfl, rfl, rfl, rfl, rfl⟩
    refine ⟨?_, hinv⟩
    unfold append_intent_proof
    rw [hhash, hnul, hpd, hpis]
  · intro i ppi
    rfl

theorem append_intent_proof_spec_witness :
    append_intent_proof c6Intent =
      .ok ([0x11, 0x22, 2] ++ [0x33, 7] ++ [6] ++
        [5, 6, 7, 2 * 10 ^ 18, 1 * 10 ^ 18, 90]) ∧
    append_intent_proof { c6Intent with proof_public_inputs := [] } =
      append_intent_proof c6Intent := by
  constructor
  · have h1 : parse_felt_any c6Intent.intent_hash = .ok 0x11 := rfl
    have h2 : parse_felt_any c6Intent.nullifier = .ok 0x22 := rfl
    have h3 : c6Intent.proof_data.mapM parse_felt_any = .ok [0x33, 7] := rfl
    have h4 : public_inputs_to_felts c6Intent.public_inputs =
        .ok [5, 6, 7, 2 * 10 ^ 18, 1 * 10 ^ 18, 90] := rfl
    exact (append_intent_proof_spec.1 c6Intent 0x11 0x22 [0x33, 7]
      [5, 6, 7, 2 * 10 ^ 18, 1 * 10 ^ 18, 90] h1 h2 h3 h4).1
  · exact append_intent_proof_spec.2 c6Intent []

/-! ### Comparator order lemmas for the matcher's counterparty selection -/

theorem cmpNat_eq_lt (m n : Nat) : cmpNat m n = .lt ↔ m < n := by
  unfold cmpNat
  split_ifs with h1 h2 <;> simp_all

theorem cmpNat_eq_eq (m n : Nat) : cmpNat m n = .eq ↔ m = n := by
  unfold cmpNat
  split_ifs with h1 h2
  · exact iff_of_false (by simp) (by omega)
  · exact iff_of_true rfl h2
  · exact iff_of_false (by simp) h2

theorem cmpNat_eq_gt (m n : Nat) : cmpNat m n = .gt ↔ n < m := by
  unfold cmpNat
  split_ifs with h1 h2
  · exact iff_of_false (by simp) (by omega)
  · exact iff_of_false (by simp) (by omega)
  · exact iff_of_true rfl (by omega)

theorem cmpStr_eq_lt (s t : String) : cmpStr s t = .lt ↔ s < t := by
  unfold cmpStr
  split_ifs with h1 h2 <;> simp_all

theorem cmpStr_eq_eq (s t : String) : cmpStr s t = .eq ↔ s = t := by
  unfold cmpStr
  split_ifs with h1 h2
  · exact iff_of_false (by simp) (fun h => absurd h (ne_of_lt h1))
  · exact iff_of_true rfl h2
  · exact iff_of_false (by simp) h2

theorem cmpStr_eq_gt (s t : String) : cmpStr s t = .gt ↔ t < s := by
  unfold cmpStr
  split_ifs with h1 h2
  · exact iff_of_false (by simp) (fun h => lt_asymm h1 h)
  · exact iff_of_false (by simp) (fun h => absurd h (by rw [h2]; exact lt_irrefl t))
  · refine iff_of_true rfl ?_
    rcases lt_trichotomy s t with h | h | h
    · exact absurd h h1
    · exact absurd h h2
    · exact h

theorem f64Lt_irrefl (a : Option Nat) : ¬ f64Lt a a := by
  cases a <;> simp [f64Lt]

theorem f64Lt_trans {a b c : Option Nat} (h1 : f64Lt a b) (h2 : f64Lt b c) :
    f64Lt a c := by
  cases a <;> cases b <;> cases c <;> simp_all [f64Lt] <;> omega

theorem f64Lt_trichotomy (a b : Option Nat) : f64Lt a b ∨ a = b ∨ f64Lt b a := by
  cases a <;> cases b <;> simp [f64Lt] <;> omega

theorem f64Le_of_not_lt {a b : Option Nat} (h : ¬ f64Lt a b) : f64Le b a := by
  cases a <;> cases b <;> simp_all [f64Lt, f64Le] <;> omega

theorem cmpF64_eq_lt (a b : Option Nat) : cmpF64 a b = .lt ↔ f64Lt a b := by
  cases a <;> cases b <;> simp [cmpF64, f64Lt, cmpNat_eq_lt]

theorem cmpF64_eq_eq (a b : Option Nat) : cmpF64 a b = .eq ↔ a = b := by
  cases a <;> cases b <;> simp [cmpF64, cmpNat_eq_eq]

theorem cmpF64_eq_gt (a b : Option Nat) : cmpF64 a b = .gt ↔ f64Lt b a := by
  cases a <;> cases b <;> simp [cmpF64, f64Lt, cmpNat_eq_gt]

theorem then_eq_lt (o1 o2 : Ordering) :
    o1.then o2 = .lt ↔ (o1 = .lt ∨ (o1 = .eq ∧ o2 = .lt)) := by
  cases o1 <;> simp [Ordering.then]

theorem then_eq_eq (o1 o2 : Ordering) :
    o1.then o2 = .eq ↔ (o1 = .eq ∧ o2 = .eq) := by
  cases o1 <;> simp [Ordering.then]

theorem then_eq_gt (o1 o2 : Ordering) :
    o1.then o2 = .gt ↔ (o1 = .gt ∨ (o1 = .eq ∧ o2 = .gt)) := by
  cases o1 <;> simp [Ordering.then]

theorem candidateCompare_eq_gt (a x y : Intent) :
    candidateCompare a x y = .gt ↔ StrictBetter a x y := by
  unfold candidateCompare StrictBetter
  rw [then_eq_gt, then_eq_gt, then_eq_eq, cmpF64_eq_gt, cmpF64_eq_eq, cmpNat_eq_gt,
    cmpNat_eq_eq, cmpStr_eq_gt]
  constructor
  · rintro ((h | ⟨he, h⟩) | ⟨⟨he, hc⟩, h⟩)
    · exact Or.inl h
    · exact Or.inr ⟨he, Or.inl h⟩
    · exact Or.inr ⟨he, Or.inr ⟨hc.symm, h⟩⟩
  · rintro (h | ⟨he, h | ⟨hc, h⟩⟩)
    · exact Or.inl (Or.inl h)
    · exact Or.inl (Or.inr ⟨he, h⟩)
    · exact Or.inr ⟨⟨he, hc.symm⟩, h⟩

theorem candidateCompare_eq_lt (a x y : Intent) :
    candidateCompare a x y = .lt ↔ StrictBetter a y x := by
  unfold candidateCompare StrictBetter
  rw [then_eq_lt, then_eq_lt, then_eq_eq, cmpF64_eq_lt, cmpF64_eq_eq, cmpNat_eq_lt,
    cmpNat_eq_eq, cmpStr_eq_lt]
  constructor
  · rintro ((h | ⟨he, h⟩) | ⟨⟨he, hc⟩, h⟩)
    · exact Or.inl h
    · exact Or.inr ⟨he.symm, Or.inl h⟩
    · exact Or.inr ⟨he.symm, Or.inr ⟨hc, h⟩⟩
  · rintro (h | ⟨he, h | ⟨hc, h⟩⟩)
    · exact Or.inl (Or.inl h)
    · exact Or.inl (Or.inr ⟨he.symm, h⟩)
    · exact Or.inr ⟨⟨he.symm, hc⟩, h⟩

theorem strictBetter_irrefl (a : Intent) (x : Intent) : ¬ StrictBetter a x x := by
  rintro (h | ⟨_, h | ⟨_, h⟩⟩)
  · exact f64Lt_irrefl _ h
  · exact lt_irrefl _ h
  · exact lt_irrefl _ h

theorem strictBetter_trans (a : Intent) {x y z : Intent}
    (h1 : StrictBetter a x y) (h2 : StrictBetter a y z) : StrictBetter a x z := by
  rcases h1 with h1 | ⟨e1, h1⟩ <;> rcases h2 with h2 | ⟨e2, h2⟩
  · exact Or.inl (f64Lt_trans h2 h1)
  · exact Or.inl (e2 ▸ h1)
  · exact Or.inl (e1.symm ▸ h2)
  · refine Or.inr ⟨e1.trans e2, ?_⟩
    rcases h1 with hc1 | ⟨ce1, hn1⟩ <;> rcases h2 with hc2 | ⟨ce2, hn2⟩
    · exact Or.inl (lt_trans hc1 hc2)
    · exact Or.inl (by omega)
    · exact Or.inl (by omega)
    · exact Or.inr ⟨ce1.trans ce2, lt_trans hn1 hn2⟩

theorem tiedCand_sb_left (a : Intent) {x y : Intent} (z : Intent)
    (ht : TiedCand a x y) : StrictBetter a x z ↔ StrictBetter a y z := by
  unfold StrictBetter
  rw [ht.1, ht.2.1, ht.2.2]

theorem strictBetter_total (a : Intent) {x y : Intent} (h : ¬ StrictBetter a x y) :
    StrictBetter a y x ∨ TiedCand a x y := by
  rcases f64Lt_trichotomy (compatibility_surplus a x) (compatibility_surplus a y)
    with hs | hs | hs
  · exact Or.inl (Or.inl hs)
  · rcases lt_trichotomy x.created_at y.created_at with hc | hc | hc
    · exact absurd (Or.inr ⟨hs, Or.inl hc⟩) h
    · rcases lt_trichotomy x.nullifier y.nullifier with hn | hn | hn
      · exact absurd (Or.inr ⟨hs, Or.inr ⟨hc, hn⟩⟩) h
      · exact Or.inr ⟨hs, hc, hn⟩
      · exact Or.inl (Or.inr ⟨hs.symm, Or.inr ⟨hc.symm, hn⟩⟩)
    · exact Or.inl (Or.inr ⟨hs.symm, Or.inl hc⟩)
  · exact absurd (Or.inl hs) h

theorem pickBest_spec (a : Intent) :
    ∀ (l : List (Nat × Intent)) (x0 : Nat × Intent),
    (pickBest a x0 l = x0 ∨ pickBest a x0 l ∈ l) ∧
    ¬ StrictBetter a x0.2 (pickBest a x0 l).2 ∧
    ∀ z ∈ l, ¬ StrictBetter a z.2 (pickBest a x0 l).2 := by
  intro l
  induction l with
  | nil =>
    intro x0
    exact ⟨Or.inl rfl, strictBetter_irrefl a x0.2, by simp⟩
  | cons y ys ih =>
    intro x0
    have hstep : pickBest a x0 (y :: ys) =
        pickBest a (if candidateCompare a x0.2 y.2 = .gt then x0 else y) ys := rfl
    by_cases hc : candidateCompare a x0.2 y.2 = .gt
    · rw [hstep, if_pos hc]
      obtain ⟨hmem, hx1, hall⟩ := ih x0
      have hxy : StrictBetter a x0.2 y.2 := (candidateCompare_eq_gt a x0.2 y.2).mp hc
      refine ⟨?_, hx1, ?_⟩
      · rcases hmem with h | h
        · exact Or.inl h
        · exact Or.inr (List.mem_cons_of_mem y h)
      · intro z hz
        rcases List.mem_cons.mp hz with rfl | hz
        · exact fun hyr => hx1 (strictBetter_trans a hxy hyr)
        · exact hall z hz
    · rw [hstep, if_neg hc]
      obtain ⟨hmem, hy1, hall⟩ := ih y
      have hnxy : ¬ StrictBetter a x0.2 y.2 :=
        fun hx => hc ((candidateCompare_eq_gt a x0.2 y.2).mpr hx)
      refine ⟨?_, ?_, ?_⟩
      · rcases hmem with h | h
        · rw [h]
          exact Or.inr (List.mem_cons_self y ys)
        · exact Or.inr (List.mem_cons_of_mem y h)
      · intro hxr
        rcases strictBetter_total a hnxy with hyx | htied
        · exact hy1 (strictBetter_trans a hyx hxr)
        · exact hy1 ((tiedCand_sb_left a _ htied).mp hxr)
      · intro z hz
        rcases List.mem_cons.mp hz with rfl | hz
        · exact hy1
        · exact hall z hz

/-- Claim C2 (amended): the counterparty chosen by the per-intent selection
is an unused compatible candidate with the maximum f64-PROJECTED surplus
(the correctly rounded double of the exact base-unit surplus, which can
collapse distinct surpluses from 2^53 up), ties under that projection broken
by the EARLIEST created_at and then the SMALLEST nullifier (the source's
comparator reverses created_at and nullifier inside max_by, and its own
comment states the earliest-created_at tie-break). -/
theorem select_best_maximal (now : Nat) (a : Intent) (l : List Intent)
    (used : List Nat) (j : Nat) (chosen : Intent)
    (h : select_best now a l used = some (j, chosen)) :
    ((j, chosen) ∈ enumerate l ∧ used.contains j = false ∧
      are_compatible now a chosen = true) ∧
    ∀ k b, (k, b) ∈ enumerate l → used.contains k = false →
      are_compatible now a b = true →
      f64Le (compatibility_surplus a b) (compatibility_surplus a chosen) ∧
      (compatibility_surplus a b = compatibility_surplus a chosen →
        chosen.created_at ≤ b.created_at) ∧
      (compatibility_surplus a b = compatibility_surplus a chosen →
        chosen.created_at = b.created_at → chosen.nullifier ≤ b.nullifier) := by
  unfold select_best at h
  cases hf : (enumerate l).filter
      (fun p => ! (used.contains p.1) && are_compatible now a p.2) with
  | nil =>
    rw [hf] at h
    exact absurd h (by simp [maxByLast])
  | cons x0 xs =>
    rw [hf] at h
    have hpick : pickBest a x0 xs = (j, chosen) := by
      have : maxByLast (fun p q => candidateCompare a p.2 q.2) (x0 :: xs) =
          some (pickBest a x0 xs) := rfl
      rw [this] at h
      exact Option.some.inj h
    obtain ⟨hmem, hx1, hall⟩ := pickBest_spec a xs x0
    rw [hpick] at hmem hx1 hall
    have hmemf : (j, chosen) ∈ (enumerate l).filter
        (fun p => ! (used.contains p.1) && are_compatible now a p.2) := by
      rw [hf]
      rcases hmem with h' | h'
      · rw [h']
        exact List.mem_cons_self x0 xs
      · exact List.mem_cons_of_mem x0 h'
    have hsplit := List.mem_filter.mp hmemf
    have hpred := hsplit.2
    simp only [Bool.and_eq_true, Bool.not_eq_true'] at hpred
    refine ⟨⟨hsplit.1, hpred.1, hpred.2⟩, ?_⟩
    intro k b hkb hku hkc
    have hkf : (k, b) ∈ (enumerate l).filter
        (fun p => ! (used.contains p.1) && are_compatible now a p.2) :=
      List.mem_filter.mpr ⟨hkb, by
        simp only [Bool.and_eq_true, Bool.not_eq_true']
        exact ⟨hku, hkc⟩⟩
    have hnsb : ¬ StrictBetter a b chosen := by
      rw [hf] at hkf
      rcases List.mem_cons.mp hkf with h' | h'
      · have hb : x0.2 = b := by rw [← h']
        rw [← hb]
        exact hx1
      · exact hall (k, b) h'
    refine ⟨?_, ?_, ?_⟩
    · exact f64Le_of_not_lt (fun h' => hnsb (Or.inl h'))
    · intro he
      by_contra h'
      push_neg at h'
      exact hnsb (Or.inr ⟨he, Or.inl h'⟩)
    · intro he hce
      by_contra h'
      push_neg at h'
      exact hnsb (Or.inr ⟨he, Or.inr ⟨hce.symm, h'⟩⟩)

/-- Claim C2 fails as stated, twice over.  First, with two equally-compatible
equal-surplus counterparties, the selection returns the one with the EARLIER
created_at (index 0), not the claimed latest.  Second, the ranking compares
f64 projections of the surplus: c2G1 and c2G2 have exact surpluses
2^60 + 2^53 and 2^60 + 2^53 + 1 against c2F, which round to the same double,
so the selection returns c2G1 — whose exact surplus is STRICTLY SMALLER —
because it was created earlier, refuting highest-exact-surplus selection as
well. -/
theorem select_best_tiebreak_counterexample :
    (select_best 100 c2A [c2B1, c2B2] [] = some (0, c2B1) ∧
     compatibility_surplus c2A c2B1 = compatibility_surplus c2A c2B2 ∧
     c2B1.created_at < c2B2.created_at ∧
     are_compatible 100 c2A c2B2 = true) ∧
    (select_best 100 c2F [c2G1, c2G2] [] = some (0, c2G1) ∧
     total_surplus c2F c2G1 < total_surplus c2F c2G2 ∧
     compatibility_surplus c2F c2G1 = compatibility_surplus c2F c2G2 ∧
     are_compatible 100 c2F c2G2 = true) := by
  refine ⟨⟨by decide, by decide, by decide, by decide⟩,
    ⟨by decide, by decide, by decide, by decide⟩⟩

/-- Witness for select_best_maximal at a concrete selection. -/
theorem select_best_maximal_witness :
    (0, c2B1) ∈ enumerate [c2B1, c2B2] ∧ ([] : List Nat).contains 0 = false ∧
      are_compatible 100 c2A c2B1 = true :=
  (select_best_maximal 100 c2A [c2B1, c2B2] [] 0 c2B1 (by decide)).1

/-! ### Nonce reservation and the submit pipeline (claim C1) -/

theorem assocFind_set_self {α : Type} (l : List (String × α)) (k : String) (v : α) :
    assocFind (assocSet l k v) k = some v := by
  unfold assocFind assocSet
  rw [List.find?_cons_of_pos _ (by simp)]
  rfl

/-- The persist tail never touches the nonce-reservation keys. -/
theorem persist_intent_nonces (env : SubmitEnv) (now : Nat) (st1 : StoreState)
    (req : SubmitIntentRequest) :
    (persist_intent env now st1 req).1.nonces = st1.nonces := by
  unfold persist_intent
  split
  · rfl
  · split
    · rfl
    · rfl

/-- Claim C1: the first reserve_nonce(u, n, t) returns true and records an
expiry of now + max(t - now, 1); any later call with the same (u, n) while
that reservation is live returns false; and in the submit pipeline, of two
successive submissions carrying the same (user, nonce) that both reach the
nonce-reservation step, the second is rejected with ERR_NONCE_REPLAY. -/
theorem reserve_nonce_antireplay :
    (∀ (now : Nat) (st : StoreState) (u : String) (n t : Nat),
      nonce_live st (nonce_key u n) now = false →
      (reserve_nonce now st u n t).2 = true ∧
      assocFind (reserve_nonce now st u n t).1.nonces (nonce_key u n) =
        some (now + max (t - now) 1)) ∧
    (∀ (now1 : Nat) (st : StoreState) (u : String) (n t1 : Nat),
      nonce_live st (nonce_key u n) now1 = false →
      ∀ (now2 t2 : Nat), now2 < now1 + max (t1 - now1) 1 →
      (reserve_nonce now2 (reserve_nonce now1 st u n t1).1 u n t2).2 = false) ∧
    (∀ (env1 env2 : SubmitEnv) (now1 now2 : Nat) (st0 : StoreState)
      (req1 req2 : SubmitIntentRequest),
      req1.proof_data ≠ [] →
      (req1.proof_public_inputs = [] ∨ 3 ≤ req1.proof_public_inputs.length) →
      is_valid_signature req1.signature = true →
      trimChars req1.public_inputs.chain_id.data ≠ [] →
      trimChars req1.public_inputs.domain_separator.data ≠ [] →
      now1 < req1.public_inputs.deadline →
      (if env1.enforce_prechecks then env1.precheck else .ok ()) = .ok () →
      get_intent now1 st0 req1.nullifier = none →
      env1.preflight = .ok () →
      nonce_live st0
        (nonce_key req1.public_inputs.user req1.public_inputs.nonce) now1 = false →
      req2.public_inputs.user = req1.public_inputs.user →
      req2.public_inputs.nonce = req1.public_inputs.nonce →
      req2.proof_data ≠ [] →
      (req2.proof_public_inputs = [] ∨ 3 ≤ req2.proof_public_inputs.length) →
      is_valid_signature req2.signature = true →
      trimChars req2.public_inputs.chain_id.data ≠ [] →
      trimChars req2.public_inputs.domain_separator.data ≠ [] →
      now2 < req2.public_inputs.deadline →
      (if env2.enforce_prechecks then env2.precheck else .ok ()) = .ok () →
      get_intent now2 (submit_intent env1 now1 st0 req1).1 req2.nullifier = none →
      env2.preflight = .ok () →
      now2 < now1 + max (req1.public_inputs.deadline - now1) 1 →
      (submit_intent env2 now2 (submit_intent env1 now1 st0 req1).1 req2).2 =
        .error "ERR_NONCE_REPLAY") := by
  have hfresh : ∀ (now : Nat) (st : StoreState) (u : String) (n t : Nat),
      nonce_live st (nonce_key u n) now = false →
      reserve_nonce now st u n t =
        ({ st with
            nonces := assocSet st.nonces (nonce_key u n) (now + max (t - now) 1) },
          true) := by
    intro now st u n t h
    unfold reserve_nonce
    rw [if_neg (by simp [h])]
  refine ⟨?first, ?replay, ?submit⟩
  case first =>
    intro now st u n t h
    rw [hfresh now st u n t h]
    exact ⟨rfl, assocFind_set_self st.nonces (nonce_key u n) (now + max (t - now) 1)⟩
  case replay =>
    intro now1 st u n t1 h now2 t2 hlt
    rw [hfresh now1 st u n t1 h]
    unfold reserve_nonce
    rw [if_pos]
    unfold nonce_live
    rw [show (assocFind
        (assocSet st.nonces (nonce_key u n) (now1 + max (t1 - now1) 1))
        (nonce_key u n)) = some (now1 + max (t1 - now1) 1) from
      assocFind_set_self st.nonces (nonce_key u n) (now1 + max (t1 - now1) 1)]
    exact decide_eq_true hlt
  case submit =>
    intro env1 env2 now1 now2 st0 req1 req2 h1 h2 h3 h4 h5 h6 h7 h8 h9 h10
      hu hn g1 g2 g3 g4 g5 g6 g7 g8 g9 hts
    have h2' : ¬(req1.proof_public_inputs ≠ [] ∧ req1.proof_public_inputs.length < 3) := by
      rcases h2 with h2 | h2
      · exact fun hc => hc.1 h2
      · exact fun hc => by omega
    have g2' : ¬(req2.proof_public_inputs ≠ [] ∧ req2.proof_public_inputs.length < 3) := by
      rcases g2 with g | g
      · exact fun hc => hc.1 g
      · exact fun hc => by omega
    have hres1 := hfresh now1 st0 req1.public_inputs.user req1.public_inputs.nonce
      req1.public_inputs.deadline h10
    have hnon1 : (submit_intent env1 now1 st0 req1).1.nonces =
        assocSet st0.nonces
          (nonce_key req1.public_inputs.user req1.public_inputs.nonce)
          (now1 + max (req1.public_inputs.deadline - now1) 1) := by
      unfold submit_intent
      rw [if_neg h1, if_neg h2', if_neg (by simp [h3]),
        if_neg (by rintro (hc | hc); exacts [h4 hc, h5 hc]), if_neg (by omega), h7]
      rw [h8, if_neg (show ¬ ((none : Option Intent).isSome = true) by simp)]
      rw [h9, hres1]
      show (persist_intent env1 now1
        { st0 with
            nonces := assocSet st0.nonces
              (nonce_key req1.public_inputs.user req1.public_inputs.nonce)
              (now1 + max (req1.public_inputs.deadline - now1) 1) } req1).1.nonces = _
      rw [persist_intent_nonces]
    set S := (submit_intent env1 now1 st0 req1).1 with hS
    have hlive2 : nonce_live S
        (nonce_key req2.public_inputs.user req2.public_inputs.nonce) now2 = true := by
      rw [hu, hn]
      unfold nonce_live
      rw [hnon1, assocFind_set_self]
      exact decide_eq_true hts
    have hres2 : reserve_nonce now2 S req2.public_inputs.user
        req2.public_inputs.nonce req2.public_inputs.deadline = (S, false) := by
      unfold reserve_nonce
      rw [if_pos hlive2]
    unfold submit_intent
    rw [if_neg g1, if_neg g2', if_neg (by simp [g3]),
      if_neg (by rintro (hc | hc); exacts [g4 hc, g5 hc]), if_neg (by omega), g7]
    rw [g8, if_neg (show ¬ ((none : Option Intent).isSome = true) by simp)]
    rw [g9, hres2]

/-- Witness for reserve_nonce_antireplay: two concrete submissions with the
same (user, nonce); the second is rejected with ERR_NONCE_REPLAY. -/
theorem reserve_nonce_antireplay_witness :
    (submit_intent c1Env 20 (submit_intent c1Env 10 {} c1Req1).1 c1Req2).2 =
      .error "ERR_NONCE_REPLAY" :=
  reserve_nonce_antireplay.2.2 c1Env c1Env 10 20 {} c1Req1 c1Req2
    (by decide) (Or.inl rfl) (by decide) (by decide) (by decide) (by decide)
    rfl rfl rfl rfl rfl rfl
    (by decide) (Or.inl rfl) (by decide) (by decide) (by decide) (by decide)
    rfl rfl rfl (by decide)

end StarkShield
